import Mathlib

/-!
# APRK OS — scheduler and dispatch subsystem, shallow embedding

A byte- and word-level Lean model of the task scheduler
(`src/kernel/src/sched/mod.rs`), the synchronous-exception / IRQ dispatch
path (`src/arch/arm64/src/exception.rs`) and the kernel syscall handler
(`src/kernel/src/main.rs`) of APRK OS.  Machine integers (`u64`, `usize`,
`u8`) are embedded as `Nat`; the few places where wrap-around could matter
(pid counter, slice counter) never wrap on any input the theorems range
over.  Fixed-size arrays (`[Task; 16]`, `[u8; 16]`) are embedded as `List`s
of that length.  The hardware context-switch primitive (`context.S`) is
embedded by its documented effect on the scheduler state: it stores the
executing stack pointer into the outgoing task's `stack_top` slot and makes
the incoming task's saved `stack_top` the executing stack pointer.
-/

namespace AprkOS

/-- `TaskState` from `sched/mod.rs`: task execution states. -/
inductive TaskState
  | Unused
  | Ready
  | Running
  | Blocked
  | Dead
deriving DecidableEq

/-- `Priority` from `sched/mod.rs`: task priority levels, `repr(u8)`
with discriminants `Idle = 0 … RealTime = 4`; the derived `Ord` compares
discriminants. -/
inductive Priority
  | Idle
  | Low
  | Normal
  | High
  | RealTime
deriving DecidableEq

/-- The `repr(u8)` discriminant of a `Priority`; Rust's derived `Ord`
on the enum compares these values. -/
def Priority.toNat : Priority → Nat
  | .Idle => 0
  | .Low => 1
  | .Normal => 2
  | .High => 3
  | .RealTime => 4

/-- `Priority::time_slices` from `sched/mod.rs`. -/
def Priority.time_slices : Priority → Nat
  | .Idle => 1
  | .Low => 2
  | .Normal => 4
  | .High => 8
  | .RealTime => 16

/-- `MAX_TASKS` from `sched/mod.rs`. -/
def MAX_TASKS : Nat := 16

/-- `BASE_TIME_SLICE` from `sched/mod.rs`. -/
def BASE_TIME_SLICE : Nat := 1

/-- `Task` (the PCB) from `sched/mod.rs`.  The `name: [u8; 16]` field is a
16-element byte list. -/
structure Task where
  id : Nat
  stack_top : Nat
  state : TaskState
  priority : Priority
  remaining_slices : Nat
  name : List Nat
deriving DecidableEq

/-- `Task::empty` from `sched/mod.rs`. -/
def Task.empty : Task :=
  { id := 0, stack_top := 0, state := .Unused, priority := .Idle,
    remaining_slices := 0, name := List.replicate 16 0 }

/-- `Task::set_name` from `sched/mod.rs`: copies `min(len, 15)` bytes of
the name into `name[..len]`, writes a NUL at `name[len]`, and leaves the
bytes after position `len` untouched. -/
def Task.set_name (t : Task) (bytes : List Nat) : Task :=
  let len := min bytes.length 15
  { t with name := bytes.take len ++ [0] ++ t.name.drop (len + 1) }

/-- Whether a byte is a UTF-8 continuation byte (`0x80..=0xBF`). -/
def utf8Cont (b : Nat) : Bool := 0x80 ≤ b && b ≤ 0xBF

/-- UTF-8 validity of a byte sequence, as checked by
`core::str::from_utf8`: ASCII is one byte; `0xC2..=0xDF` lead a 2-byte
sequence; `0xE0`/`0xE1..=0xEC`/`0xED`/`0xEE..=0xEF` lead 3-byte sequences
with the standard restrictions on the second byte (no overlongs, no
surrogates); `0xF0`/`0xF1..=0xF3`/`0xF4` lead 4-byte sequences (no
overlongs, max `U+10FFFF`); everything else is invalid. -/
def utf8Valid : List Nat → Bool
  | [] => true
  | b :: rest =>
    if b < 0x80 then utf8Valid rest
    else if 0xC2 ≤ b && b ≤ 0xDF then
      match rest with
      | c1 :: r => utf8Cont c1 && utf8Valid r
      | [] => false
    else if b = 0xE0 then
      match rest with
      | c1 :: c2 :: r => (0xA0 ≤ c1 && c1 ≤ 0xBF) && utf8Cont c2 && utf8Valid r
      | _ => false
    else if 0xE1 ≤ b && b ≤ 0xEC then
      match rest with
      | c1 :: c2 :: r => utf8Cont c1 && utf8Cont c2 && utf8Valid r
      | _ => false
    else if b = 0xED then
      match rest with
      | c1 :: c2 :: r => (0x80 ≤ c1 && c1 ≤ 0x9F) && utf8Cont c2 && utf8Valid r
      | _ => false
    else if 0xEE ≤ b && b ≤ 0xEF then
      match rest with
      | c1 :: c2 :: r => utf8Cont c1 && utf8Cont c2 && utf8Valid r
      | _ => false
    else if b = 0xF0 then
      match rest with
      | c1 :: c2 :: c3 :: r =>
        (0x90 ≤ c1 && c1 ≤ 0xBF) && utf8Cont c2 && utf8Cont c3 && utf8Valid r
      | _ => false
    else if 0xF1 ≤ b && b ≤ 0xF3 then
      match rest with
      | c1 :: c2 :: c3 :: r => utf8Cont c1 && utf8Cont c2 && utf8Cont c3 && utf8Valid r
      | _ => false
    else if b = 0xF4 then
      match rest with
      | c1 :: c2 :: c3 :: r =>
        (0x80 ≤ c1 && c1 ≤ 0x8F) && utf8Cont c2 && utf8Cont c3 && utf8Valid r
      | _ => false
    else false

/-- `Task::get_name` from `sched/mod.rs`, at the byte level: take the
bytes up to the first NUL (or all 16 if none), return them if they are
valid UTF-8, else the bytes of the string `"?"` (the `unwrap_or("?")`
fallback). -/
def Task.get_name (t : Task) : List Nat :=
  let len := (t.name.findIdx? (fun c => c = 0)).getD 16
  let bytes := t.name.take len
  if utf8Valid bytes then bytes else [63]

/-- `Task::reset_time_slice` from `sched/mod.rs`. -/
def Task.reset_time_slice (t : Task) : Task :=
  { t with remaining_slices := t.priority.time_slices * BASE_TIME_SLICE }

/-- The scheduler's mutable statics from `sched/mod.rs` (`TASKS`,
`TASK_COUNT`, `CURRENT_TASK`, `NEXT_PID`, `SCHEDULER_ENABLED`), plus `msp`,
the stack pointer of the currently executing context.  `msp` embeds the
machine's SP register as seen by `context.S`: `context_switch` saves it
into the outgoing task's `stack_top` and loads the incoming task's
`stack_top` into it. -/
structure SchedState where
  tasks : List Task
  task_count : Nat
  current_task : Nat
  next_pid : Nat
  sched_enabled : Bool
  msp : Nat
deriving DecidableEq

/-- Read `TASKS[i]` (indices used by the code are always in bounds;
the default is `Task::empty`, the static initializer). -/
def getTask (s : SchedState) (i : Nat) : Task :=
  s.tasks.getD i Task.empty

/-- Write `TASKS[i]`. -/
def setTask (s : SchedState) (i : Nat) (t : Task) : SchedState :=
  { s with tasks := s.tasks.set i t }

/-- The byte contents of the idle task's `name` field,
`*b"idle\0\0\0\0\0\0\0\0\0\0\0\0"`. -/
def idleName : List Nat := [105, 100, 108, 101] ++ List.replicate 12 0

/-- `init` from `sched/mod.rs`: slot 0 becomes the bootstrap/idle task
(`Running`, priority `Idle`, `stack_top = 0`), the other 15 slots keep
their static `Task::empty` value; one task, next pid 1, scheduling
disabled.  `bootSp` is the stack pointer of the booting context (the
value of the SP register when `init` runs). -/
def initState (bootSp : Nat) : SchedState :=
  { tasks := { id := 0, stack_top := 0, state := .Running, priority := .Idle,
               remaining_slices := 1, name := idleName } :: List.replicate 15 Task.empty,
    task_count := 1, current_task := 0, next_pid := 1,
    sched_enabled := false, msp := bootSp }

/-- `enable` from `sched/mod.rs`. -/
def enable (s : SchedState) : SchedState := { s with sched_enabled := true }

/-- The effect of `context.S::context_switch(prev_sp, next_sp)` on the
scheduler state, with `prev_sp = &TASKS[prev].stack_top` and `next_sp`
the value `TASKS[next].stack_top` read before the call: the executing
stack pointer is stored through `prev_sp` and `next_sp` becomes the
executing stack pointer (the incoming task's saved context resumes). -/
def contextSwitch (s : SchedState) (prev next : Nat) : SchedState :=
  let nextSp := (getTask s next).stack_top
  let s1 := setTask s prev { getTask s prev with stack_top := s.msp }
  { s1 with msp := nextSp }

/-- Scan accumulator of the selection loop in `schedule`
(`best_idx`, `best_priority`, `found`). -/
structure ScanAcc where
  best_idx : Nat
  best_priority : Priority
  found : Bool
deriving DecidableEq

/-- One iteration of the selection loop in `schedule` (`sched/mod.rs`):
`check_idx = (current + i) % count`; skip slot 0 while
`TASKS[0].stack_top == 0`; a `Ready` slot replaces the accumulator when
nothing was found yet or its priority is strictly higher. -/
def scanStep (s : SchedState) (acc : ScanAcc) (i : Nat) : ScanAcc :=
  let check_idx := (s.current_task + i) % s.task_count
  if check_idx = 0 ∧ (getTask s 0).stack_top = 0 then acc
  else
    let t := getTask s check_idx
    if t.state = .Ready ∧ (acc.found = false ∨ acc.best_priority.toNat < t.priority.toNat) then
      { best_idx := check_idx, best_priority := t.priority, found := true }
    else acc

/-- The first `k` iterations (`i = 1 … k`) of the selection loop, started
from `best_idx = current_idx`, `best_priority = Idle`, `found = false`. -/
def scanIters (s : SchedState) : Nat → ScanAcc
  | 0 => { best_idx := s.current_task, best_priority := .Idle, found := false }
  | k + 1 => scanStep s (scanIters s k) (k + 1)

/-- The full selection loop of `schedule`: `for i in 1..=count`. -/
def findBest (s : SchedState) : ScanAcc := scanIters s s.task_count

/-- Which control path `schedule` took; `schedule` in the code returns
`()`, but which arm ran (and whether a context switch happened) is the
observable the claims speak about. -/
inductive ScheduleOutcome
  | disabledOrSolo
  | stayRunning
  | idleFallback
  | fatalHalt
  | noCandidateOther
  | selfSelect
  | switched (idx : Nat)
deriving DecidableEq

/-- `schedule` from `sched/mod.rs`: early return when `count <= 1` or
scheduling is disabled; otherwise run the selection loop; if nothing was
found, keep a still-`Running` current task (slice reset), or fall back to
slot 0 when the current task is `Dead`/`Blocked` and slot 0 has a saved
context, or halt; if the best candidate is the current slot, just reset
its slice; otherwise demote a `Running` current task to `Ready`, promote
the candidate to `Running` with a fresh slice, update `CURRENT_TASK` and
context-switch. -/
def schedule (s : SchedState) : SchedState × ScheduleOutcome :=
  if s.task_count ≤ 1 ∨ s.sched_enabled = false then (s, .disabledOrSolo)
  else
    let current_idx := s.current_task
    let acc := findBest s
    if acc.found = false then
      let current_state := (getTask s current_idx).state
      if current_state = .Running then
        (setTask s current_idx (Task.reset_time_slice (getTask s current_idx)), .stayRunning)
      else if current_state = .Dead ∨ current_state = .Blocked then
        if (getTask s 0).stack_top ≠ 0 then
          let s1 := setTask s 0 { getTask s 0 with state := .Running }
          let s2 := { s1 with current_task := 0 }
          (contextSwitch s2 current_idx 0, .idleFallback)
        else
          (s, .fatalHalt)
      else (s, .noCandidateOther)
    else if acc.best_idx = current_idx then
      (setTask s current_idx (Task.reset_time_slice (getTask s current_idx)), .selfSelect)
    else
      let s1 :=
        if (getTask s current_idx).state = .Running then
          setTask s current_idx { getTask s current_idx with state := .Ready }
        else s
      let s2 := setTask s1 acc.best_idx
        (Task.reset_time_slice { getTask s1 acc.best_idx with state := .Running })
      let s3 := { s2 with current_task := acc.best_idx }
      (contextSwitch s3 current_idx acc.best_idx, .switched acc.best_idx)

/-- `spawn_named` from `sched/mod.rs`.  `entry` is the entry-point
address and `allocPtr` the address returned by the 16 KiB stack
allocation; the initial context frame is built 14 u64s (112 bytes) below
the stack top, and its word contents (entry at `sp+0`, the kernel
trampoline at `sp+88`, `0` at `sp+96`) live in the task's stack memory,
outside the scheduler state.  Returns the new state and whether the spawn
succeeded (`false` = table at capacity, diagnostic printed, no-op). -/
def spawn_named (entry allocPtr : Nat) (name : List Nat) (priority : Priority)
    (s : SchedState) : SchedState × Bool :=
  if MAX_TASKS ≤ s.task_count then (s, false)
  else
    let slot := s.task_count
    let id := s.next_pid
    let stack_top := allocPtr + 16 * 1024 - 14 * 8
    let t0 := getTask s slot
    let t1 := { t0 with id := id, stack_top := stack_top, state := TaskState.Ready,
                        priority := priority }
    let t2 := Task.set_name t1 name
    let t3 := Task.reset_time_slice t2
    ({ setTask s slot t3 with task_count := s.task_count + 1, next_pid := s.next_pid + 1 },
     true)

/-- `spawn_user` from `sched/mod.rs`.  `kstackPtr`/`ustackPtr` are the
addresses returned by the 16 KiB kernel-stack and 64 KiB user-stack
allocations; the context frame is built on the kernel stack (user entry at
`sp+0`, user stack top at `sp+8`, the user trampoline at `sp+88`, the
user stack top again at `sp+96`), in task memory outside the scheduler
state; the priority is always `Normal`. -/
def spawn_user (entry_addr kstackPtr ustackPtr : Nat) (name : List Nat)
    (s : SchedState) : SchedState × Bool :=
  if MAX_TASKS ≤ s.task_count then (s, false)
  else
    let slot := s.task_count
    let id := s.next_pid
    let kstack_top := kstackPtr + 16 * 1024 - 14 * 8
    let t0 := getTask s slot
    let t1 := { t0 with id := id, stack_top := kstack_top, state := TaskState.Ready,
                        priority := Priority.Normal }
    let t2 := Task.set_name t1 name
    let t3 := Task.reset_time_slice t2
    ({ setTask s slot t3 with task_count := s.task_count + 1, next_pid := s.next_pid + 1 },
     true)

/-- `exit_current_task` from `sched/mod.rs`: mark the current task `Dead`
and call `schedule`; the resulting state is the global state after the
switch away (if `schedule` returns instead of switching, the code halts
in a `wfi` loop and the state no longer changes). -/
def exit_current_task (s : SchedState) : SchedState :=
  let t := getTask s s.current_task
  (schedule (setTask s s.current_task { t with state := .Dead })).1

/-- `current_task_id` from `sched/mod.rs`. -/
def current_task_id (s : SchedState) : Nat := (getTask s s.current_task).id

/-- `task_count` from `sched/mod.rs`. -/
def task_count (s : SchedState) : Nat := s.task_count

/-- `block_current_task` from `sched/mod.rs`: mark the current task
`Blocked` and call `schedule`. -/
def block_current_task (s : SchedState) : SchedState :=
  let t := getTask s s.current_task
  (schedule (setTask s s.current_task { t with state := .Blocked })).1

/-- The loop body of `wake_task`: scan slots `i, i+1, …` while fuel
remains (`fuel` starts as `TASK_COUNT`, so the scan covers
`0..TASK_COUNT`), flipping the first `Blocked` slot with the matching id
to `Ready` and stopping there. -/
def wakeAux (pid : Nat) (s : SchedState) : Nat → Nat → SchedState
  | _, 0 => s
  | i, fuel + 1 =>
    let t := getTask s i
    if t.id = pid ∧ t.state = .Blocked then
      setTask s i { t with state := .Ready }
    else wakeAux pid s (i + 1) fuel

/-- `wake_task` from `sched/mod.rs`. -/
def wake_task (pid : Nat) (s : SchedState) : SchedState :=
  wakeAux pid s 0 s.task_count

/-- `tick` from `sched/mod.rs`: no-op when scheduling is disabled or at
most one task exists; otherwise decrement the current task's remaining
slice count (if positive) and call `schedule` exactly when it reaches 0.
The boolean records whether `schedule` was invoked. -/
def tick (s : SchedState) : SchedState × Bool :=
  if s.sched_enabled = false ∨ s.task_count ≤ 1 then (s, false)
  else
    let cur := getTask s s.current_task
    let s1 :=
      if 0 < cur.remaining_slices then
        setTask s s.current_task { cur with remaining_slices := cur.remaining_slices - 1 }
      else s
    if (getTask s1 s.current_task).remaining_slices = 0 then ((schedule s1).1, true)
    else (s1, false)

/-- Run `tick` `k` times; the boolean records whether any of the `k`
ticks invoked `schedule`. -/
def tickRun : Nat → SchedState → SchedState × Bool
  | 0, s => (s, false)
  | k + 1, s =>
    let p := tick s
    let q := tickRun k p.1
    (q.1, p.2 || q.2)

/-- One scheduler-API step.  `block` and `exit` carry the precondition
that the current task is `Running`: they are cooperative calls executed
by the task that is currently on the CPU. -/
inductive Step : SchedState → SchedState → Prop
  | enable (s : SchedState) : Step s (AprkOS.enable s)
  | spawnNamed (s : SchedState) (entry allocPtr : Nat) (name : List Nat) (p : Priority) :
      Step s (spawn_named entry allocPtr name p s).1
  | spawnUser (s : SchedState) (entry_addr kstackPtr ustackPtr : Nat) (name : List Nat) :
      Step s (spawn_user entry_addr kstackPtr ustackPtr name s).1
  | tick (s : SchedState) : Step s (AprkOS.tick s).1
  | schedule (s : SchedState) : Step s (AprkOS.schedule s).1
  | block (s : SchedState) (h : (getTask s s.current_task).state = .Running) :
      Step s (block_current_task s)
  | wake (s : SchedState) (pid : Nat) : Step s (wake_task pid s)
  | exit (s : SchedState) (h : (getTask s s.current_task).state = .Running) :
      Step s (exit_current_task s)

/-- States reachable from scheduler initialization by scheduler-API
steps. -/
def Reachable (s : SchedState) : Prop :=
  ∃ bootSp s0, s0 = initState bootSp ∧ Relation.ReflTransGen Step s0 s

/-- `TrapFrame` from `exception.rs`: all general-purpose registers as
saved by `SAVE_CONTEXT` in `exception.S`, at fixed 8-byte offsets
(`x0` at `sp+0` … `x30` at `sp+240`). -/
structure TrapFrame where
  x0 : Nat
  x1 : Nat
  x2 : Nat
  x3 : Nat
  x4 : Nat
  x5 : Nat
  x6 : Nat
  x7 : Nat
  x8 : Nat
  x9 : Nat
  x10 : Nat
  x11 : Nat
  x12 : Nat
  x13 : Nat
  x14 : Nat
  x15 : Nat
  x16 : Nat
  x17 : Nat
  x18 : Nat
  x19 : Nat
  x20 : Nat
  x21 : Nat
  x22 : Nat
  x23 : Nat
  x24 : Nat
  x25 : Nat
  x26 : Nat
  x27 : Nat
  x28 : Nat
  x29 : Nat
  x30 : Nat
deriving DecidableEq

/-- `u64::MAX`, the error sentinel of the syscall table. -/
def U64_MAX : Nat := 2 ^ 64 - 1

/-- `core::alloc::Layout::from_size_align(size, align).is_ok()`:
`align` is a power of two and `size` rounded up to `align` does not
overflow `isize` (`size <= isize::MAX - (align - 1)`). -/
def layoutOk (size align : Nat) : Bool :=
  (align ≠ 0 && Nat.land align (align - 1) = 0) && size ≤ 2 ^ 63 - 1 - (align - 1)

/-- `kernel_syscall_handler` from `main.rs` (the `#[no_mangle]` symbol the
dispatcher links against; `syscall.rs` is not compiled into the kernel).
`allocFn size align` embeds the external heap allocator
(`alloc::alloc::alloc`, 0 on failure).  The numeric result is the `u64`
the handler returns (`none` for `exit`, which never returns); bytes
written to the console by `print` and the diagnostics are not modelled.
`dealloc`'s layout check uses `a1` (size) and `a2` (align). -/
def kernel_syscall_handler (allocFn : Nat → Nat → Nat) (s : SchedState)
    (id a0 a1 a2 : Nat) : SchedState × Option Nat :=
  match id with
  | 0 => (s, some 0)
  | 1 => (exit_current_task s, none)
  | 2 => (s, some (current_task_id s))
  | 3 => ((schedule s).1, some 0)
  | 4 => ((schedule s).1, some 0)
  | 5 => if layoutOk a0 a1 then (s, some (allocFn a0 a1)) else (s, some 0)
  | 6 => if layoutOk a1 a2 then (s, some 0) else (s, some 1)
  | _ => (s, some U64_MAX)

/-- `handle_sync_exception` from `exception.rs`.  Inputs: `esr`
(`ESR_EL1`), `elr` (`ELR_EL1`), the saved trap frame, and `x3resid` — the
value sitting in register `x3` when the handler is called.  `x3resid` is
what the fourth parameter of `kernel_syscall_handler` receives: the
`extern "C"` declaration in `exception.rs` has only three parameters
`(id, arg0, arg1)` and the call passes only `tf.x8, tf.x0, tf.x1`, while
the `#[no_mangle]` definition in `main.rs` takes a fourth argument
`arg2` (read from `x3`) and returns a `u64`.  The call's `u64` result is
dropped (the declaration returns `()`), the frame is only read
(`&*trap_frame`), `ELR_EL1` is advanced by 4 past the `SVC`, and the
handler returns.

Modelled from the spec: the exception entry/return path of `exception.S`
(not under `src/`) — per §4.1/§6 the exception frame "holds all
general-purpose registers, saved by the hardware-exception entry path",
at fixed offsets, and exception return restores the interrupted context
from that frame; so the returned `TrapFrame` is what the trapping caller
resumes with.  Result: `(frame restored at eret, scheduler state,
ELR_EL1, halted)`; any cause other than `EC = 0x15` (SVC) prints
diagnostics and halts. -/
def handle_sync_exception (allocFn : Nat → Nat → Nat) (esr elr x3resid : Nat)
    (tf : TrapFrame) (s : SchedState) : TrapFrame × SchedState × Nat × Bool :=
  let ec := Nat.land (esr >>> 26) 0x3F
  if ec = 0x15 then
    let r := kernel_syscall_handler allocFn s tf.x8 tf.x0 tf.x1 x3resid
    (tf, r.1, elr + 4, false)
  else
    (tf, s, elr, true)

/-- Observable actions of `handle_irq_exception` (`exception.rs`), in
program order: GIC acknowledge, timer rearm, GIC end-of-interrupt,
`kernel_tick` (the tick/selection algorithm), UART receive handling,
unknown-id diagnostic. -/
inductive IrqEvent
  | ack (iar : Nat)
  | rearmTimer
  | eoi (iar : Nat)
  | tickCall
  | uartIrq
  | unknownDiag (id : Nat)
deriving DecidableEq

/-- `handle_irq_exception` from `exception.rs`, as the sequence of
actions it performs: acknowledge yields `iar`; `irq_id = iar & 0x3FF`;
timer ids 27/30 rearm the timer and signal EOI before calling
`kernel_tick`; id 33 forwards to the UART handler then EOI; id 1023
(spurious) is ignored with no EOI; anything else prints a diagnostic
then EOI. -/
def handle_irq_exception (iar : Nat) : List IrqEvent :=
  let irq_id := Nat.land iar 0x3FF
  if irq_id = 27 ∨ irq_id = 30 then
    [.ack iar, .rearmTimer, .eoi iar, .tickCall]
  else if irq_id = 33 then
    [.ack iar, .uartIrq, .eoi iar]
  else if irq_id = 1023 then
    [.ack iar]
  else
    [.ack iar, .unknownDiag irq_id, .eoi iar]

/-- An index eligible for selection by `schedule`'s scan: not the
uninitialized idle slot (slot 0 while its `stack_top` is 0) and in
`Ready` state. -/
def Good (s : SchedState) (j : Nat) : Prop :=
  ¬(j = 0 ∧ (getTask s 0).stack_top = 0) ∧ (getTask s j).state = .Ready

instance (s : SchedState) (j : Nat) : Decidable (Good s j) := by
  unfold Good; infer_instance

/-- The loop iteration (`i` in `1..=count`) at which the scan reaches
slot `j`: slots after the current index come first (wrapping), the
current slot itself last. -/
def scanPos (s : SchedState) (j : Nat) : Nat :=
  if j = s.current_task then s.task_count
  else (j + (s.task_count - s.current_task)) % s.task_count

/-- Number of task-table slots in `Running` state. -/
def runningCount (s : SchedState) : Nat :=
  ((List.range 16).filter (fun i => (getTask s i).state = TaskState.Running)).length

/-- A successful spawn operation with its arguments (entry address,
allocator results, name bytes, priority for the kernel-thread variant). -/
inductive SpawnCall
  | named (entry allocPtr : Nat) (name : List Nat) (priority : Priority)
  | user (entry_addr kstackPtr ustackPtr : Nat) (name : List Nat)

/-- Apply one spawn call. -/
def doSpawn : SpawnCall → SchedState → SchedState
  | .named e a nm p, s => (spawn_named e a nm p s).1
  | .user e k u nm, s => (spawn_user e k u nm s).1

/-- Apply a sequence of spawn calls. -/
def runSpawnCalls (calls : List SpawnCall) (s : SchedState) : SchedState :=
  calls.foldl (fun st c => doSpawn c st) s

/-! ## List helper lemmas (getD / set) -/

theorem getD_set_self {α : Type} :
    ∀ (l : List α) (i : Nat) (a d : α), i < l.length → (l.set i a).getD i d = a
  | [], i, _, _, h => absurd h (by simp)
  | _ :: _, 0, _, _, _ => rfl
  | _ :: xs, i + 1, a, d, h => getD_set_self xs i a d (by simpa using h)

theorem getD_set_ne {α : Type} :
    ∀ (l : List α) (i j : Nat) (a d : α), i ≠ j → (l.set i a).getD j d = l.getD j d
  | [], _, _, _, _, _ => rfl
  | _ :: _, 0, 0, _, _, h => absurd rfl h
  | _ :: _, 0, _ + 1, _, _, _ => rfl
  | _ :: _, _ + 1, 0, _, _, _ => rfl
  | _ :: xs, i + 1, j + 1, a, d, h =>
    getD_set_ne xs i j a d (fun hij => h (by omega))

theorem getD_of_length_le {α : Type} :
    ∀ (l : List α) (i : Nat) (d : α), l.length ≤ i → l.getD i d = d
  | [], _, _, _ => rfl
  | _ :: _, 0, _, h => absurd h (by simp)
  | _ :: xs, i + 1, d, h => getD_of_length_le xs i d (by simpa using h)

theorem getD_replicate_self {α : Type} :
    ∀ (n i : Nat) (a : α), (List.replicate n a).getD i a = a
  | 0, _, _ => rfl
  | _ + 1, 0, _ => rfl
  | n + 1, i + 1, a => getD_replicate_self n i a

/-! ## Basic state-manipulation lemmas -/

theorem getTask_setTask_self (s : SchedState) (i : Nat) (t : Task)
    (h : i < s.tasks.length) : getTask (setTask s i t) i = t :=
  getD_set_self s.tasks i t Task.empty h

theorem getTask_setTask_ne (s : SchedState) (i j : Nat) (t : Task)
    (h : i ≠ j) : getTask (setTask s i t) j = getTask s j :=
  getD_set_ne s.tasks i j t Task.empty h

theorem setTask_tasks_length (s : SchedState) (i : Nat) (t : Task) :
    (setTask s i t).tasks.length = s.tasks.length := by
  simp [setTask]

/-- `contextSwitch` only rewrites a `stack_top` field and the machine
stack pointer: every slot's `state`, `id`, `priority` and
`remaining_slices` are unchanged, as are the scalar scheduler fields. -/
theorem contextSwitch_proj (s : SchedState) (p n i : Nat) :
    (getTask (contextSwitch s p n) i).state = (getTask s i).state ∧
    (getTask (contextSwitch s p n) i).id = (getTask s i).id ∧
    (getTask (contextSwitch s p n) i).priority = (getTask s i).priority ∧
    (getTask (contextSwitch s p n) i).remaining_slices = (getTask s i).remaining_slices := by
  by_cases hpi : p = i
  · subst hpi
    by_cases hlen : p < s.tasks.length
    · have h1 : getTask (contextSwitch s p n) p = { getTask s p with stack_top := s.msp } :=
        getTask_setTask_self s p { getTask s p with stack_top := s.msp } hlen
      rw [h1]
      exact ⟨rfl, rfl, rfl, rfl⟩
    · have hset : s.tasks.set p { getTask s p with stack_top := s.msp } = s.tasks :=
        List.set_eq_of_length_le (by omega)
      have h1 : getTask (contextSwitch s p n) p = getTask s p := by
        show (s.tasks.set p { getTask s p with stack_top := s.msp }).getD p Task.empty
          = s.tasks.getD p Task.empty
        rw [hset]
      rw [h1]
      exact ⟨rfl, rfl, rfl, rfl⟩
  · have h1 : getTask (contextSwitch s p n) i = getTask s i :=
      getTask_setTask_ne s p i { getTask s p with stack_top := s.msp } hpi
    rw [h1]
    exact ⟨rfl, rfl, rfl, rfl⟩

theorem contextSwitch_scalars (s : SchedState) (p n : Nat) :
    (contextSwitch s p n).task_count = s.task_count ∧
    (contextSwitch s p n).current_task = s.current_task ∧
    (contextSwitch s p n).next_pid = s.next_pid ∧
    (contextSwitch s p n).sched_enabled = s.sched_enabled ∧
    (contextSwitch s p n).tasks.length = s.tasks.length := by
  unfold contextSwitch setTask
  refine ⟨rfl, rfl, rfl, rfl, ?_⟩
  simp

/-! ## Concrete states used by witnesses and counterexamples -/

/-- One kernel thread spawned after boot (the shell, here with empty name
bytes and entry/allocator addresses 0; boot stack pointer 5). -/
def sSpawn1 : SchedState := (spawn_named 0 0 [] Priority.Normal (initState 5)).1

/-- … scheduling enabled and the first `schedule` done: slot 1 is
`Running` and current, slot 0 (idle) `Ready` with a saved context. -/
def sShell : SchedState := (schedule (enable sSpawn1)).1

/-- … the shell task has exited: the idle task (slot 0) runs again and
slot 1 is `Dead`. -/
def sIdleBack : SchedState := exit_current_task sShell

/-- Two kernel threads (`Low` then `High`) spawned after boot, scheduling
enabled, no switch yet: slots 1 and 2 are `Ready`, slot 0 is current. -/
def sTwoReady : SchedState :=
  enable (spawn_named 0 0 [] Priority.High
    ((spawn_named 0 0 [] Priority.Low (initState 5)).1)).1

/-- A trap frame for a `getpid` system call: syscall number 2 in `x8`,
first argument register `x0` holding 7. -/
def tfGetpid : TrapFrame :=
  { x0 := 7, x1 := 0, x2 := 0, x3 := 0, x4 := 0, x5 := 0, x6 := 0, x7 := 0,
    x8 := 2, x9 := 0, x10 := 0, x11 := 0, x12 := 0, x13 := 0, x14 := 0,
    x15 := 0, x16 := 0, x17 := 0, x18 := 0, x19 := 0, x20 := 0, x21 := 0,
    x22 := 0, x23 := 0, x24 := 0, x25 := 0, x26 := 0, x27 := 0, x28 := 0,
    x29 := 0, x30 := 0 }

/-- `ESR_EL1` for an AArch64 `SVC`: exception class `0x15` in bits
`[31:26]`. -/
def esrSvc : Nat := 0x15 <<< 26

/-! ## C8 — IRQ handler ordering -/

/-- C8: on a timer interrupt (acknowledged id 27 or 30) the handler
rearms the timer and signals end-of-interrupt strictly before invoking
the tick/selection algorithm (its action sequence is acknowledge, rearm,
EOI, tick — so both effects precede the tick call even when the tick
path never returns); for the spurious id 1023 no end-of-interrupt is
signaled; for an unknown id a diagnostic is emitted and
end-of-interrupt is signaled. -/
theorem C8_irq_handler_order (iar : Nat) :
    ((Nat.land iar 0x3FF = 27 ∨ Nat.land iar 0x3FF = 30) →
      handle_irq_exception iar =
        [IrqEvent.ack iar, IrqEvent.rearmTimer, IrqEvent.eoi iar, IrqEvent.tickCall]) ∧
    (Nat.land iar 0x3FF = 1023 → ∀ j, IrqEvent.eoi j ∉ handle_irq_exception iar) ∧
    (Nat.land iar 0x3FF ≠ 27 → Nat.land iar 0x3FF ≠ 30 → Nat.land iar 0x3FF ≠ 33 →
      Nat.land iar 0x3FF ≠ 1023 →
      handle_irq_exception iar =
        [IrqEvent.ack iar, IrqEvent.unknownDiag (Nat.land iar 0x3FF), IrqEvent.eoi iar]) := by
  refine ⟨fun h => ?_, fun h j => ?_, fun h27 h30 h33 h1023 => ?_⟩
  · unfold handle_irq_exception
    rw [if_pos h]
  · unfold handle_irq_exception
    rw [if_neg (by omega), if_neg (by omega), if_pos h]
    simp
  · unfold handle_irq_exception
    rw [if_neg (by tauto), if_neg h33, if_neg h1023]

/-- Witness for C8 at the concrete ids 30 (timer), 1023 (spurious) and
99 (unknown). -/
theorem C8_irq_handler_order_witness :
    handle_irq_exception 30 =
      [IrqEvent.ack 30, IrqEvent.rearmTimer, IrqEvent.eoi 30, IrqEvent.tickCall] ∧
    IrqEvent.eoi 1023 ∉ handle_irq_exception 1023 ∧
    handle_irq_exception 99 =
      [IrqEvent.ack 99, IrqEvent.unknownDiag 99, IrqEvent.eoi 99] :=
  ⟨(C8_irq_handler_order 30).1 (by decide),
   (C8_irq_handler_order 1023).2.1 (by decide) 1023,
   (C8_irq_handler_order 99).2.2 (by decide) (by decide) (by decide) (by decide)⟩

/-! ## C1 — syscall dispatch drops the handler's result -/

/-- C1 (code bug): at a concrete `getpid` trap in the reachable state
`sShell` (current task id 1), the handler computes the result 1, but the
dispatcher — whose `extern` declaration of `kernel_syscall_handler` has
only three parameters and no return value, while the `#[no_mangle]`
definition takes four and returns `u64` — drops that result and returns
the trap frame unchanged, so the saved `x0` still holds the caller's
argument 7 and the trapping caller reads back 7, not its task id.
The third table argument of `dealloc` (align) is likewise never read
from the frame: the handler's fourth parameter receives whatever sits in
`x3` at call time (here shown with residuals 64 and 3 giving different
dealloc results for the same frame). -/
theorem C1_syscall_result_dropped :
    (handle_sync_exception (fun _ _ => 0) esrSvc 0 0 tfGetpid sShell).1 = tfGetpid ∧
    tfGetpid.x0 = 7 ∧
    (kernel_syscall_handler (fun _ _ => 0) sShell tfGetpid.x8 tfGetpid.x0 tfGetpid.x1 0).2
      = some 1 ∧
    (kernel_syscall_handler (fun _ _ => 0) sShell 6 4096 32 64).2 = some 0 ∧
    (kernel_syscall_handler (fun _ _ => 0) sShell 6 4096 32 3).2 = some 1 ∧
    (kernel_syscall_handler (fun _ _ => 0) sShell 99 0 0 0).2 = some U64_MAX := by
  refine ⟨?_, rfl, ?_, ?_, ?_, ?_⟩ <;> decide

/-! ## C6 — spawning at capacity is a clean no-op -/

/-- C6: when the task table already holds `MAX_TASKS` (16) tasks, both
`spawn_named` and `spawn_user` fail cleanly: the state is returned
unchanged (no slot modified, task count unchanged, no pid consumed from
the monotonic counter) and the success flag is `false` (the code prints
a diagnostic and returns). -/
theorem C6_spawn_at_capacity (s : SchedState) (h : MAX_TASKS ≤ s.task_count)
    (entry allocPtr : Nat) (name : List Nat) (p : Priority)
    (entry_addr kstackPtr ustackPtr : Nat) (name2 : List Nat) :
    spawn_named entry allocPtr name p s = (s, false) ∧
    spawn_user entry_addr kstackPtr ustackPtr name2 s = (s, false) := by
  unfold spawn_named spawn_user
  rw [if_pos h, if_pos h]
  exact ⟨rfl, rfl⟩

/-- A full task table: fifteen kernel threads spawned after boot. -/
def sFullTable : SchedState :=
  (List.range 15).foldl (fun st _ => (spawn_named 0 0 [] Priority.Normal st).1) (initState 1)

/-- Witness for C6 at the concrete full table `sFullTable`
(`task_count = 16`). -/
theorem C6_spawn_at_capacity_witness :
    MAX_TASKS ≤ sFullTable.task_count ∧
    spawn_named 7 4096 [97] Priority.High sFullTable = (sFullTable, false) ∧
    spawn_user 9 8192 12288 [98] sFullTable = (sFullTable, false) :=
  ⟨by decide,
   (C6_spawn_at_capacity sFullTable (by decide) 7 4096 [97] Priority.High 9 8192 12288 [98]).1,
   (C6_spawn_at_capacity sFullTable (by decide) 7 4096 [97] Priority.High 9 8192 12288 [98]).2⟩

/-! ## C10 — task-name round-trip through the TCB -/

/-- The first NUL in `l ++ 0 :: r` sits right after the NUL-free block
`l`, wherever the scan starts. -/
theorem findIdx_zero_append :
    ∀ (l r : List Nat) (i : Nat), (∀ x ∈ l, x ≠ 0) →
      List.findIdx? (fun c => c = 0) (l ++ 0 :: r) i = some (i + l.length)
  | [], r, i, _ => by simp [List.findIdx?_cons]
  | a :: l, r, i, h => by
    have ha : a ≠ 0 := h a (by simp)
    have ih := findIdx_zero_append l r (i + 1) (fun x hx => h x (by simp [hx]))
    simp only [List.cons_append, List.findIdx?_cons, decide_eq_true_eq]
    rw [if_neg ha, ih]
    congr 1
    simp
    omega

/-- A 17-byte name — fourteen `a`s followed by the three UTF-8 bytes of
`€` — whose 15-byte truncation cuts the final character in half. -/
def nmSplit : List Nat := List.replicate 14 97 ++ [226, 130, 172]

/-- C10 counterexample: for the valid, NUL-free 17-byte name `nmSplit`,
`set_name` stores its first 15 bytes plus a NUL, but that truncation
ends mid-character, so `from_utf8` fails and `get_name` returns `"?"`
(byte 63) — not the 15-byte prefix the claim promises. -/
theorem C10_counterexample :
    utf8Valid nmSplit = true ∧ (0 ∈ nmSplit) = False ∧ 15 < nmSplit.length ∧
    Task.get_name (Task.set_name Task.empty nmSplit) = [63] ∧
    nmSplit.take 15 ≠ [63] := by
  refine ⟨by decide, by decide, by decide, by decide, by decide⟩

/-- C10 (amended): names round-trip up to truncation *when the stored
bytes remain valid UTF-8*: a NUL-free valid name of at most 15 bytes is
returned exactly by `get_name` after `set_name`; a longer name is stored
as its first 15 bytes followed by a NUL terminator, and `get_name`
returns that 15-byte prefix provided the prefix itself is NUL-free and
valid UTF-8 (otherwise `get_name` falls back to `"?"`, as the
counterexample shows). -/
theorem C10_name_roundtrip :
    (∀ (t : Task) (bytes : List Nat), t.name.length = 16 →
      utf8Valid bytes = true → 0 ∉ bytes → bytes.length ≤ 15 →
      Task.get_name (Task.set_name t bytes) = bytes) ∧
    (∀ (t : Task) (bytes : List Nat), t.name.length = 16 → 15 < bytes.length →
      (Task.set_name t bytes).name = bytes.take 15 ++ [0] ∧
      (utf8Valid (bytes.take 15) = true → 0 ∉ bytes.take 15 →
        Task.get_name (Task.set_name t bytes) = bytes.take 15)) := by
  constructor
  · intro t bytes _ hvalid h0 hle
    have hmin : min bytes.length 15 = bytes.length := by omega
    have hnz : ∀ x ∈ bytes, x ≠ 0 := fun x hx hx0 => h0 (hx0 ▸ hx)
    unfold Task.set_name Task.get_name
    simp only [hmin, List.take_length]
    have hfind := findIdx_zero_append bytes (t.name.drop (bytes.length + 1)) 0 hnz
    have hl : bytes ++ [0] ++ t.name.drop (bytes.length + 1)
        = bytes ++ 0 :: t.name.drop (bytes.length + 1) := by simp
    rw [hl, hfind]
    simp only [Option.getD_some, Nat.zero_add]
    have htake : (bytes ++ 0 :: t.name.drop (bytes.length + 1)).take bytes.length = bytes :=
      List.take_left bytes _
    rw [htake, if_pos hvalid]
  · intro t bytes hlen16 hlong
    have hmin : min bytes.length 15 = 15 := by omega
    have hdrop : t.name.drop 16 = [] := List.drop_eq_nil_of_le (by omega)
    have hname : (Task.set_name t bytes).name = bytes.take 15 ++ [0] := by
      unfold Task.set_name
      simp only [hmin, hdrop, List.append_assoc, List.cons_append, List.nil_append,
        List.append_nil]
    refine ⟨hname, fun hvalid h0 => ?_⟩
    have hnz : ∀ x ∈ bytes.take 15, x ≠ 0 := fun x hx hx0 => h0 (hx0 ▸ hx)
    have hlen15 : (bytes.take 15).length = 15 := by
      rw [List.length_take]; omega
    unfold Task.get_name
    rw [hname]
    have hfind := findIdx_zero_append (bytes.take 15) [] 0 hnz
    rw [hlen15, Nat.zero_add] at hfind
    rw [show bytes.take 15 ++ [0] = bytes.take 15 ++ 0 :: ([] : List Nat) from rfl, hfind]
    simp only [Option.getD_some]
    have htake : (bytes.take 15 ++ 0 :: ([] : List Nat)).take 15 = bytes.take 15 :=
      List.take_left' hlen15
    rw [htake, if_pos hvalid]

/-- Witness for C10 at the concrete names `"shell"` (round-trips intact)
and sixteen `a`s (truncated to a clean 15-byte prefix). -/
theorem C10_name_roundtrip_witness :
    Task.get_name (Task.set_name Task.empty [115, 104, 101, 108, 108])
      = [115, 104, 101, 108, 108] ∧
    (Task.set_name Task.empty (List.replicate 16 97)).name = List.replicate 15 97 ++ [0] ∧
    Task.get_name (Task.set_name Task.empty (List.replicate 16 97))
      = List.replicate 15 97 :=
  ⟨C10_name_roundtrip.1 Task.empty [115, 104, 101, 108, 108]
      (by decide) (by decide) (by decide) (by decide),
   by
    have h := (C10_name_roundtrip.2 Task.empty (List.replicate 16 97)
      (by decide) (by decide)).1
    simpa using h,
   by
    have h := (C10_name_roundtrip.2 Task.empty (List.replicate 16 97)
      (by decide) (by decide)).2 (by decide) (by decide)
    simpa using h⟩

/-! ## C4 — slice countdown and preemption point -/

theorem time_slices_pos (p : Priority) : 1 ≤ p.time_slices := by
  cases p <;> simp [Priority.time_slices]

/-- A tick with at least two slices left decrements the counter and does
not invoke `schedule`. -/
theorem tick_decrement (s : SchedState) (hen : s.sched_enabled = true)
    (h2 : 2 ≤ s.task_count) (hcur : s.current_task < s.tasks.length)
    (hpos : 2 ≤ (getTask s s.current_task).remaining_slices) :
    tick s = (setTask s s.current_task
      { getTask s s.current_task with
        remaining_slices := (getTask s s.current_task).remaining_slices - 1 }, false) := by
  have h1 : ¬(s.sched_enabled = false ∨ s.task_count ≤ 1) := by
    simp [hen]
    omega
  have hp : 0 < (getTask s s.current_task).remaining_slices := by omega
  have hget : getTask (setTask s s.current_task
      { getTask s s.current_task with
        remaining_slices := (getTask s s.current_task).remaining_slices - 1 })
      s.current_task
      = { getTask s s.current_task with
          remaining_slices := (getTask s s.current_task).remaining_slices - 1 } :=
    getTask_setTask_self s s.current_task _ hcur
  have h0 : ¬(({ getTask s s.current_task with
      remaining_slices := (getTask s s.current_task).remaining_slices - 1 } : Task).remaining_slices
      = 0) := by
    show ¬((getTask s s.current_task).remaining_slices - 1 = 0)
    omega
  unfold tick
  rw [if_neg h1]
  dsimp only
  rw [if_pos hp]
  dsimp only at hget h0 ⊢
  rw [hget, if_neg h0]

/-- A tick with exactly one slice left invokes `schedule`. -/
theorem tick_fires (s : SchedState) (hen : s.sched_enabled = true)
    (h2 : 2 ≤ s.task_count) (hcur : s.current_task < s.tasks.length)
    (hone : (getTask s s.current_task).remaining_slices = 1) :
    (tick s).2 = true := by
  have h1 : ¬(s.sched_enabled = false ∨ s.task_count ≤ 1) := by
    simp [hen]
    omega
  have hp : 0 < (getTask s s.current_task).remaining_slices := by omega
  have hget : getTask (setTask s s.current_task
      { getTask s s.current_task with
        remaining_slices := (getTask s s.current_task).remaining_slices - 1 })
      s.current_task
      = { getTask s s.current_task with
          remaining_slices := (getTask s s.current_task).remaining_slices - 1 } :=
    getTask_setTask_self s s.current_task _ hcur
  have h0 : ({ getTask s s.current_task with
      remaining_slices := (getTask s s.current_task).remaining_slices - 1 } : Task).remaining_slices
      = 0 := by
    show (getTask s s.current_task).remaining_slices - 1 = 0
    omega
  unfold tick
  rw [if_neg h1]
  dsimp only
  rw [if_pos hp]
  dsimp only at hget h0 ⊢
  rw [hget, if_pos h0]

/-- Running fewer ticks than the current task has remaining slices never
invokes `schedule` and only counts the slice counter down. -/
theorem tickRun_under :
    ∀ (k : Nat) (s : SchedState), s.sched_enabled = true → 2 ≤ s.task_count →
      s.current_task < s.tasks.length →
      k < (getTask s s.current_task).remaining_slices →
      (tickRun k s).2 = false ∧
      (tickRun k s).1.sched_enabled = true ∧
      (tickRun k s).1.task_count = s.task_count ∧
      (tickRun k s).1.current_task = s.current_task ∧
      (tickRun k s).1.tasks.length = s.tasks.length ∧
      getTask (tickRun k s).1 s.current_task
        = { getTask s s.current_task with
            remaining_slices := (getTask s s.current_task).remaining_slices - k }
  | 0, s, hen, _, _, _ => ⟨rfl, hen, rfl, rfl, rfl, rfl⟩
  | k + 1, s, hen, h2, hcur, hk => by
    have hstep := tick_decrement s hen h2 hcur (by omega)
    obtain ⟨s', hT⟩ : ∃ s', setTask s s.current_task
        { getTask s s.current_task with
          remaining_slices := (getTask s s.current_task).remaining_slices - 1 } = s' :=
      ⟨_, rfl⟩
    rw [hT] at hstep
    have hen' : s'.sched_enabled = true := by rw [← hT]; exact hen
    have h2' : 2 ≤ s'.task_count := by rw [← hT]; exact h2
    have hcurT : s'.current_task = s.current_task := by rw [← hT]; rfl
    have hlen' : s'.tasks.length = s.tasks.length := by
      rw [← hT]; exact setTask_tasks_length _ _ _
    have hcur' : s'.current_task < s'.tasks.length := by
      rw [hcurT, hlen']; exact hcur
    have hget' : getTask s' s.current_task
        = { getTask s s.current_task with
            remaining_slices := (getTask s s.current_task).remaining_slices - 1 } := by
      rw [← hT]; exact getTask_setTask_self s s.current_task _ hcur
    have hk' : k < (getTask s' s'.current_task).remaining_slices := by
      rw [hcurT, hget']
      show k < (getTask s s.current_task).remaining_slices - 1
      omega
    have ih := tickRun_under k s' hen' h2' hcur' hk'
    rw [hcurT] at ih
    have hred : tickRun (k + 1) s
        = ((tickRun k (tick s).1).1, (tick s).2 || (tickRun k (tick s).1).2) := rfl
    rw [hred, hstep]
    dsimp only
    simp only [Bool.false_or]
    refine ⟨ih.1, ih.2.1, by rw [ih.2.2.1, ← hT]; rfl, ih.2.2.2.1,
      by rw [ih.2.2.2.2.1, hlen'], ?_⟩
    have hfin := ih.2.2.2.2.2
    rw [hget'] at hfin
    have harith : (getTask s s.current_task).remaining_slices - 1 - k
        = (getTask s s.current_task).remaining_slices - (k + 1) := by omega
    dsimp only at hfin ⊢
    rw [harith] at hfin
    exact hfin

/-- C4: for a freshly selected task (slice counter reset to
`priority.time_slices() * BASE_TIME_SLICE` at selection), with at least
two tasks and scheduling enabled, each `tick` decrements the counter by
one (after `k` ticks it holds `time_slices - k`), the selection
algorithm is not invoked on ticks `1 .. time_slices-1`, and is invoked
exactly on tick number `time_slices`; `time_slices` maps `Idle, Low,
Normal, High, RealTime` to `1, 2, 4, 8, 16`. -/
theorem C4_tick_preemption (s : SchedState)
    (hen : s.sched_enabled = true) (h2 : 2 ≤ s.task_count)
    (hcur : s.current_task < s.tasks.length)
    (hfresh : (getTask s s.current_task).remaining_slices
      = (getTask s s.current_task).priority.time_slices * BASE_TIME_SLICE) :
    (Priority.time_slices .Idle = 1 ∧ Priority.time_slices .Low = 2 ∧
     Priority.time_slices .Normal = 4 ∧ Priority.time_slices .High = 8 ∧
     Priority.time_slices .RealTime = 16) ∧
    (∀ k, k < (getTask s s.current_task).priority.time_slices →
      (tickRun k s).2 = false ∧
      (getTask (tickRun k s).1 s.current_task).remaining_slices
        = (getTask s s.current_task).priority.time_slices - k) ∧
    (tick (tickRun ((getTask s s.current_task).priority.time_slices - 1) s).1).2 = true := by
  have hbase : (getTask s s.current_task).remaining_slices
      = (getTask s s.current_task).priority.time_slices := by
    rw [hfresh]; simp [BASE_TIME_SLICE]
  have hN := time_slices_pos (getTask s s.current_task).priority
  refine ⟨⟨rfl, rfl, rfl, rfl, rfl⟩, fun k hk => ?_, ?_⟩
  · have h := tickRun_under k s hen h2 hcur (by omega)
    exact ⟨h.1, by rw [h.2.2.2.2.2, hbase]⟩
  · have h := tickRun_under ((getTask s s.current_task).priority.time_slices - 1) s
      hen h2 hcur (by omega)
    have hfire := tick_fires (tickRun ((getTask s s.current_task).priority.time_slices - 1) s).1
      h.2.1 (by rw [h.2.2.1]; exact h2) (by rw [h.2.2.2.1, h.2.2.2.2.1]; exact hcur) ?_
    · exact hfire
    · rw [h.2.2.2.1, h.2.2.2.2.2]
      simp only [hbase]
      omega

/-- Witness for C4 at the concrete state `sShell` (current task of
priority `Normal`, freshly selected with 4 slices): three ticks pass
without invoking `schedule`, the counter reads 1, and the fourth tick
invokes it. -/
theorem C4_tick_preemption_witness :
    (tickRun 3 sShell).2 = false ∧
    (getTask (tickRun 3 sShell).1 sShell.current_task).remaining_slices = 1 ∧
    (tick (tickRun 3 sShell).1).2 = true := by
  have h := C4_tick_preemption sShell (by decide) (by decide) (by decide) (by decide)
  exact ⟨(h.2.1 3 (by decide)).1, (h.2.1 3 (by decide)).2, h.2.2⟩

/-! ## Selection-loop lemmas (C3, C9) -/

theorem scanStep_found_mono (s : SchedState) (acc : ScanAcc) (i : Nat)
    (h : acc.found = true) : (scanStep s acc i).found = true := by
  unfold scanStep
  dsimp only
  split_ifs <;> first | exact h | rfl

/-- A found accumulator points at an eligible `Ready` slot below
`task_count`, and carries that slot's priority. -/
theorem scanIters_found_spec (s : SchedState) :
    ∀ k, (scanIters s k).found = true →
      Good s (scanIters s k).best_idx ∧
      (scanIters s k).best_priority = (getTask s (scanIters s k).best_idx).priority ∧
      (0 < s.task_count → (scanIters s k).best_idx < s.task_count)
  | 0, h => by exact absurd h (by simp [scanIters])
  | k + 1, h => by
    by_cases h1 : (s.current_task + (k + 1)) % s.task_count = 0 ∧ (getTask s 0).stack_top = 0
    · have hstep : scanIters s (k + 1) = scanIters s k := by
        show scanStep s (scanIters s k) (k + 1) = scanIters s k
        unfold scanStep; dsimp only; rw [if_pos h1]
      rw [hstep] at h ⊢
      exact scanIters_found_spec s k h
    · by_cases h2 : (getTask s ((s.current_task + (k + 1)) % s.task_count)).state = TaskState.Ready
        ∧ ((scanIters s k).found = false ∨
           (scanIters s k).best_priority.toNat
             < (getTask s ((s.current_task + (k + 1)) % s.task_count)).priority.toNat)
      · have hstep : scanIters s (k + 1)
            = { best_idx := (s.current_task + (k + 1)) % s.task_count,
                best_priority := (getTask s ((s.current_task + (k + 1)) % s.task_count)).priority,
                found := true } := by
          show scanStep s (scanIters s k) (k + 1) = _
          unfold scanStep; dsimp only; rw [if_neg h1, if_pos h2]
        rw [hstep]
        exact ⟨⟨h1, h2.1⟩, rfl, fun hcnt => Nat.mod_lt _ hcnt⟩
      · have hstep : scanIters s (k + 1) = scanIters s k := by
          show scanStep s (scanIters s k) (k + 1) = scanIters s k
          unfold scanStep; dsimp only; rw [if_neg h1, if_neg h2]
        rw [hstep] at h ⊢
        exact scanIters_found_spec s k h

/-- If the scan has found nothing after `k` iterations, no slot visited
in iterations `1 … k` is an eligible `Ready` candidate. -/
theorem scanIters_none_spec (s : SchedState) :
    ∀ k, (scanIters s k).found = false →
      ∀ i, 1 ≤ i → i ≤ k → ¬ Good s ((s.current_task + i) % s.task_count)
  | 0, _, i, hi1, hik => by omega
  | k + 1, h, i, hi1, hik => by
    have hacc : (scanIters s k).found = false := by
      by_contra hc
      rw [Bool.not_eq_false] at hc
      have := scanStep_found_mono s (scanIters s k) (k + 1) hc
      rw [show scanStep s (scanIters s k) (k + 1) = scanIters s (k + 1) from rfl, h] at this
      exact Bool.false_ne_true this
    rcases Nat.lt_or_ge i (k + 1) with hik' | hik'
    · exact scanIters_none_spec s k hacc i hi1 (by omega)
    · have hi : i = k + 1 := by omega
      subst hi
      intro hgood
      by_cases h1 : (s.current_task + (k + 1)) % s.task_count = 0
          ∧ (getTask s 0).stack_top = 0
      · exact hgood.1 h1
      · have h2 : (getTask s ((s.current_task + (k + 1)) % s.task_count)).state
            = TaskState.Ready
          ∧ ((scanIters s k).found = false ∨
             (scanIters s k).best_priority.toNat
               < (getTask s ((s.current_task + (k + 1)) % s.task_count)).priority.toNat) :=
          ⟨hgood.2, Or.inl hacc⟩
        have : (scanIters s (k + 1)).found = true := by
          show (scanStep s (scanIters s k) (k + 1)).found = true
          unfold scanStep
          dsimp only
          rw [if_neg h1, if_pos h2]
        rw [h] at this
        exact Bool.false_ne_true this

/-- The best slot after `k` iterations was set at some iteration `i`,
and dominates every eligible `Ready` slot visited in iterations
`1 … k`: strictly earlier visits have strictly lower priority, later
visits at most the best's priority. -/
theorem scanIters_max_spec (s : SchedState) :
    ∀ k, (scanIters s k).found = true →
      ∃ i, 1 ≤ i ∧ i ≤ k ∧
        (s.current_task + i) % s.task_count = (scanIters s k).best_idx ∧
        ∀ i', 1 ≤ i' → i' ≤ k → Good s ((s.current_task + i') % s.task_count) →
          ((getTask s ((s.current_task + i') % s.task_count)).priority.toNat
             ≤ (getTask s (scanIters s k).best_idx).priority.toNat ∧
           ((getTask s ((s.current_task + i') % s.task_count)).priority.toNat
              = (getTask s (scanIters s k).best_idx).priority.toNat → i ≤ i'))
  | 0, h => by exact absurd h (by simp [scanIters])
  | k + 1, h => by
    by_cases h1 : (s.current_task + (k + 1)) % s.task_count = 0 ∧ (getTask s 0).stack_top = 0
    · have hstep : scanIters s (k + 1) = scanIters s k := by
        show scanStep s (scanIters s k) (k + 1) = scanIters s k
        unfold scanStep; dsimp only; rw [if_pos h1]
      rw [hstep] at h ⊢
      obtain ⟨i, hi1, hik, hpos, hopt⟩ := scanIters_max_spec s k h
      refine ⟨i, hi1, by omega, hpos, fun i' hi'1 hi'k hgood => ?_⟩
      rcases Nat.lt_or_ge i' (k + 1) with hlt | hge
      · exact hopt i' hi'1 (by omega) hgood
      · have : i' = k + 1 := by omega
        subst this
        exact absurd h1 hgood.1
    · by_cases h2 : (getTask s ((s.current_task + (k + 1)) % s.task_count)).state
          = TaskState.Ready
        ∧ ((scanIters s k).found = false ∨
           (scanIters s k).best_priority.toNat
             < (getTask s ((s.current_task + (k + 1)) % s.task_count)).priority.toNat)
      · have hstep : scanIters s (k + 1)
            = { best_idx := (s.current_task + (k + 1)) % s.task_count,
                best_priority := (getTask s ((s.current_task + (k + 1)) % s.task_count)).priority,
                found := true } := by
          show scanStep s (scanIters s k) (k + 1) = _
          unfold scanStep; dsimp only; rw [if_neg h1, if_pos h2]
        rw [hstep]
        refine ⟨k + 1, by omega, le_refl _, rfl, fun i' hi'1 hi'k hgood => ?_⟩
        rcases Nat.lt_or_ge i' (k + 1) with hlt | hge
        · rcases h2.2 with hnone | hstrict
          · exact absurd hgood (scanIters_none_spec s k hnone i' hi'1 (by omega))
          · have hf : (scanIters s k).found = true := by
              by_contra hc
              rw [Bool.not_eq_true] at hc
              exact absurd hgood (scanIters_none_spec s k hc i' hi'1 (by omega))
            obtain ⟨i0, _, _, _, hopt⟩ := scanIters_max_spec s k hf
            have hle := (hopt i' hi'1 (by omega) hgood).1
            have hpr := (scanIters_found_spec s k hf).2.1
            rw [hpr] at hstrict
            constructor
            · dsimp only
              omega
            · intro heq
              dsimp only at heq
              omega
        · have : i' = k + 1 := by omega
          subst this
          exact ⟨le_refl _, fun _ => le_refl _⟩
      · have hstep : scanIters s (k + 1) = scanIters s k := by
          show scanStep s (scanIters s k) (k + 1) = scanIters s k
          unfold scanStep; dsimp only; rw [if_neg h1, if_neg h2]
        rw [hstep] at h ⊢
        obtain ⟨i, hi1, hik, hpos, hopt⟩ := scanIters_max_spec s k h
        have hpr := (scanIters_found_spec s k h).2.1
        refine ⟨i, hi1, by omega, hpos, fun i' hi'1 hi'k hgood => ?_⟩
        rcases Nat.lt_or_ge i' (k + 1) with hlt | hge
        · exact hopt i' hi'1 (by omega) hgood
        · have hieq : i' = k + 1 := by omega
          subst hieq
          have hready := hgood.2
          have hnotlt : ¬((scanIters s k).found = false ∨
              (scanIters s k).best_priority.toNat
                < (getTask s ((s.current_task + (k + 1)) % s.task_count)).priority.toNat) :=
            fun hd => h2 ⟨hready, hd⟩
          push_neg at hnotlt
          rw [hpr] at hnotlt
          exact ⟨hnotlt.2, fun _ => by omega⟩

theorem scanPos_range (s : SchedState) (hcur : s.current_task < s.task_count)
    (j : Nat) (hj : j < s.task_count) : 1 ≤ scanPos s j ∧ scanPos s j ≤ s.task_count := by
  unfold scanPos
  split_ifs with h
  · exact ⟨by omega, le_refl _⟩
  · have hcnt : 0 < s.task_count := by omega
    constructor
    · rcases Nat.eq_zero_or_pos ((j + (s.task_count - s.current_task)) % s.task_count)
        with h0 | h0
      · exfalso
        obtain ⟨m, hm⟩ := Nat.dvd_of_mod_eq_zero h0
        rcases m with _ | _ | m
        · omega
        · omega
        · have h2 : s.task_count * 2 ≤ s.task_count * (m + 1 + 1) :=
            Nat.mul_le_mul_left _ (by omega)
          omega
      · omega
    · exact le_of_lt (Nat.mod_lt _ hcnt)

theorem add_scanPos_mod (s : SchedState) (hcur : s.current_task < s.task_count)
    (j : Nat) (hj : j < s.task_count) :
    (s.current_task + scanPos s j) % s.task_count = j := by
  unfold scanPos
  split_ifs with h
  · rw [Nat.add_mod_right, Nat.mod_eq_of_lt hcur, h]
  · have h2 : s.current_task + (j + (s.task_count - s.current_task)) = j + s.task_count := by
      omega
    rw [Nat.add_mod_mod, h2, Nat.add_mod_right, Nat.mod_eq_of_lt hj]

theorem scanPos_unique (s : SchedState) (hcur : s.current_task < s.task_count)
    (i : Nat) (hi1 : 1 ≤ i) (hik : i ≤ s.task_count) :
    scanPos s ((s.current_task + i) % s.task_count) = i := by
  have hcnt : 0 < s.task_count := by omega
  by_cases hic : i = s.task_count
  · subst hic
    have hj : (s.current_task + s.task_count) % s.task_count = s.current_task := by
      rw [Nat.add_mod_right, Nat.mod_eq_of_lt hcur]
    rw [hj]
    unfold scanPos
    rw [if_pos rfl]
  · have hilt : i < s.task_count := by omega
    by_cases hlt : s.current_task + i < s.task_count
    · have hj : (s.current_task + i) % s.task_count = s.current_task + i :=
        Nat.mod_eq_of_lt hlt
      rw [hj]
      unfold scanPos
      rw [if_neg (by omega)]
      have h2 : s.current_task + i + (s.task_count - s.current_task) = i + s.task_count := by
        omega
      rw [h2, Nat.add_mod_right, Nat.mod_eq_of_lt hilt]
    · have hge : s.task_count ≤ s.current_task + i := by omega
      have hj : (s.current_task + i) % s.task_count = s.current_task + i - s.task_count := by
        rw [Nat.mod_eq_sub_mod hge, Nat.mod_eq_of_lt (by omega)]
      rw [hj]
      unfold scanPos
      rw [if_neg (by omega)]
      have h2 : s.current_task + i - s.task_count + (s.task_count - s.current_task) = i := by
        omega
      rw [h2, Nat.mod_eq_of_lt hilt]

/-- The switched path of `schedule`: outcome, new current index, and the
selected slot's `Running` state. -/
theorem schedule_switched_state (s : SchedState)
    (htop : ¬(s.task_count ≤ 1 ∨ s.sched_enabled = false))
    (hnf : ¬((findBest s).found = false))
    (hbc : ¬((findBest s).best_idx = s.current_task))
    (hblen : (findBest s).best_idx < s.tasks.length) :
    (schedule s).2 = ScheduleOutcome.switched (findBest s).best_idx ∧
    (schedule s).1.current_task = (findBest s).best_idx ∧
    (getTask (schedule s).1 (findBest s).best_idx).state = TaskState.Running := by
  obtain ⟨s1, hs1⟩ : ∃ x, (if (getTask s s.current_task).state = TaskState.Running then
      setTask s s.current_task { getTask s s.current_task with state := TaskState.Ready }
    else s) = x := ⟨_, rfl⟩
  obtain ⟨T, hT⟩ : ∃ T, Task.reset_time_slice
      { getTask s1 (findBest s).best_idx with state := TaskState.Running } = T := ⟨_, rfl⟩
  have hred : schedule s
      = (contextSwitch { setTask s1 (findBest s).best_idx T with
          current_task := (findBest s).best_idx } s.current_task (findBest s).best_idx,
         ScheduleOutcome.switched (findBest s).best_idx) := by
    unfold schedule
    rw [if_neg htop]
    dsimp only
    rw [if_neg hnf, if_neg hbc, hs1, hT]
  have hlen1 : s1.tasks.length = s.tasks.length := by
    rw [← hs1]
    split_ifs
    · exact setTask_tasks_length _ _ _
    · rfl
  rw [hred]
  refine ⟨rfl, rfl, ?_⟩
  rw [(contextSwitch_proj _ _ _ _).1]
  have hswap : getTask { setTask s1 (findBest s).best_idx T with
      current_task := (findBest s).best_idx } (findBest s).best_idx
      = getTask (setTask s1 (findBest s).best_idx T) (findBest s).best_idx := rfl
  rw [hswap, getTask_setTask_self s1 (findBest s).best_idx T (by rw [hlen1]; exact hblen)]
  rw [← hT]
  rfl

/-- C3: whenever `schedule` runs with at least two tasks and scheduling
enabled and the scan finds a candidate, the candidate is an eligible
`Ready` slot; every eligible `Ready` slot (the uninitialized idle slot
excluded) has priority at most the candidate's — so a higher-priority
`Ready` task is always selected over a lower-priority one — and among
eligible `Ready` slots of equal highest priority the candidate is the
one nearest after the current index in wrapping scan order; `schedule`
then switches to that slot (or merely resets the slice when the
candidate is the current slot itself). -/
theorem C3_priority_selection (s : SchedState)
    (h2 : 2 ≤ s.task_count) (hen : s.sched_enabled = true)
    (hcur : s.current_task < s.task_count) (hlen : s.task_count ≤ s.tasks.length)
    (hfound : (findBest s).found = true) :
    Good s (findBest s).best_idx ∧
    (∀ j, j < s.task_count → Good s j →
      (getTask s j).priority.toNat ≤ (getTask s (findBest s).best_idx).priority.toNat ∧
      ((getTask s j).priority.toNat = (getTask s (findBest s).best_idx).priority.toNat →
        scanPos s (findBest s).best_idx ≤ scanPos s j)) ∧
    ((findBest s).best_idx = s.current_task →
      (schedule s).2 = ScheduleOutcome.selfSelect) ∧
    ((findBest s).best_idx ≠ s.current_task →
      (schedule s).2 = ScheduleOutcome.switched (findBest s).best_idx ∧
      (schedule s).1.current_task = (findBest s).best_idx ∧
      (getTask (schedule s).1 (findBest s).best_idx).state = TaskState.Running) := by
  have hspec := scanIters_found_spec s s.task_count hfound
  have hgood : Good s (findBest s).best_idx := hspec.1
  have hblt : (findBest s).best_idx < s.task_count := hspec.2.2 (by omega)
  have htop : ¬(s.task_count ≤ 1 ∨ s.sched_enabled = false) := by
    simp [hen]
    omega
  have hnf : ¬((findBest s).found = false) := by simp [hfound]
  refine ⟨hgood, ?_, ?_, ?_⟩
  · intro j hj hgoodj
    obtain ⟨i, hi1, hik, hpos, hopt⟩ := scanIters_max_spec s s.task_count hfound
    have hsp := scanPos_range s hcur j hj
    have hposj := add_scanPos_mod s hcur j hj
    have h := hopt (scanPos s j) hsp.1 hsp.2 (by rw [hposj]; exact hgoodj)
    rw [hposj] at h
    refine ⟨h.1, fun heq => ?_⟩
    have hspu : scanPos s ((s.current_task + i) % s.task_count) = i :=
      scanPos_unique s hcur i hi1 hik
    rw [hpos] at hspu
    have hspu2 : scanPos s (findBest s).best_idx = i := hspu
    rw [hspu2]
    exact h.2 heq
  · intro hbc
    unfold schedule
    rw [if_neg htop]
    dsimp only
    rw [if_neg hnf, if_pos hbc]
  · intro hbc
    exact schedule_switched_state s htop hnf hbc (by omega)

/-- Witness for C3 at the concrete state `sTwoReady` (slot 1 `Ready` at
priority `Low`, slot 2 `Ready` at priority `High`, idle slot
uninitialized): the candidate is eligible and `Ready`, dominates the
`Low` task's priority, and `schedule` switches to it. -/
theorem C3_priority_selection_witness :
    Good sTwoReady (findBest sTwoReady).best_idx ∧
    (getTask sTwoReady 1).priority.toNat
      ≤ (getTask sTwoReady (findBest sTwoReady).best_idx).priority.toNat ∧
    (schedule sTwoReady).2 = ScheduleOutcome.switched (findBest sTwoReady).best_idx ∧
    (schedule sTwoReady).1.current_task = (findBest sTwoReady).best_idx :=
  have h := C3_priority_selection sTwoReady (by decide) (by decide) (by decide)
    (by decide) (by decide)
  ⟨h.1, (h.2.1 1 (by decide) (by decide)).1,
   (h.2.2.2 (by decide)).1, (h.2.2.2 (by decide)).2.1⟩

/-- The idle-fallback path of `schedule`: outcome, new current index 0,
and slot 0's `Running` state. -/
theorem schedule_fallback_state (s : SchedState)
    (htop : ¬(s.task_count ≤ 1 ∨ s.sched_enabled = false))
    (hnf : (findBest s).found = false)
    (hnr : ¬((getTask s s.current_task).state = TaskState.Running))
    (hdb : (getTask s s.current_task).state = TaskState.Dead ∨
           (getTask s s.current_task).state = TaskState.Blocked)
    (hstk : (getTask s 0).stack_top ≠ 0)
    (hlen : 0 < s.tasks.length) :
    (schedule s).2 = ScheduleOutcome.idleFallback ∧
    (schedule s).1.current_task = 0 ∧
    (getTask (schedule s).1 0).state = TaskState.Running := by
  obtain ⟨T, hT⟩ : ∃ T, ({ getTask s 0 with state := TaskState.Running } : Task) = T :=
    ⟨_, rfl⟩
  have hred : schedule s
      = (contextSwitch { setTask s 0 T with current_task := 0 } s.current_task 0,
         ScheduleOutcome.idleFallback) := by
    unfold schedule
    rw [if_neg htop]
    dsimp only
    rw [if_pos hnf, if_neg hnr, if_pos hdb, if_pos hstk, hT]
  rw [hred]
  refine ⟨rfl, rfl, ?_⟩
  rw [(contextSwitch_proj _ _ _ _).1]
  have hswap : getTask { setTask s 0 T with current_task := 0 } 0
      = getTask (setTask s 0 T) 0 := rfl
  rw [hswap, getTask_setTask_self s 0 T hlen, ← hT]

/-- C9: the selection loop never picks slot 0 while its saved-context
pointer is still zero (so `schedule` can neither switch to slot 0 nor
take the idle fallback then); and when no eligible `Ready` candidate
exists, `schedule` keeps a still-`Running` current task with a reset
time slice, falls back to slot 0 (marking it `Running`, current index 0)
when the current task is `Dead` or `Blocked` and slot 0's saved context
is nonzero, and halts fatally when the current task is `Dead` or
`Blocked` and slot 0 is uninitialized. -/
theorem C9_idle_guard_and_fallback (s : SchedState)
    (h2 : 2 ≤ s.task_count) (hen : s.sched_enabled = true)
    (hlen : s.task_count ≤ s.tasks.length) :
    ((getTask s 0).stack_top = 0 → (findBest s).found = true →
      (findBest s).best_idx ≠ 0) ∧
    ((getTask s 0).stack_top = 0 →
      (schedule s).2 ≠ ScheduleOutcome.switched 0 ∧
      (schedule s).2 ≠ ScheduleOutcome.idleFallback) ∧
    ((∀ j, j < s.task_count → ¬ Good s j) →
      (((getTask s s.current_task).state = TaskState.Running →
        schedule s = (setTask s s.current_task
          (Task.reset_time_slice (getTask s s.current_task)),
          ScheduleOutcome.stayRunning)) ∧
       (((getTask s s.current_task).state = TaskState.Dead ∨
         (getTask s s.current_task).state = TaskState.Blocked) →
        (getTask s 0).stack_top ≠ 0 →
          (schedule s).2 = ScheduleOutcome.idleFallback ∧
          (schedule s).1.current_task = 0 ∧
          (getTask (schedule s).1 0).state = TaskState.Running) ∧
       (((getTask s s.current_task).state = TaskState.Dead ∨
         (getTask s s.current_task).state = TaskState.Blocked) →
        (getTask s 0).stack_top = 0 →
          schedule s = (s, ScheduleOutcome.fatalHalt)))) := by
  have htop : ¬(s.task_count ≤ 1 ∨ s.sched_enabled = false) := by
    simp [hen]
    omega
  have hguard : (getTask s 0).stack_top = 0 → (findBest s).found = true →
      (findBest s).best_idx ≠ 0 := by
    intro hstk hfound hzero
    have hgood := (scanIters_found_spec s s.task_count hfound).1
    exact hgood.1 ⟨hzero, hstk⟩
  refine ⟨hguard, fun hstk => ?_, fun hnone => ?_⟩
  · by_cases hfound : (findBest s).found = true
    · have hbz : ¬((findBest s).best_idx = 0) := hguard hstk hfound
      have hnf : ¬((findBest s).found = false) := by simp [hfound]
      by_cases hbc : (findBest s).best_idx = s.current_task
      · have hsel : (schedule s).2 = ScheduleOutcome.selfSelect := by
          unfold schedule
          rw [if_neg htop]
          dsimp only
          rw [if_neg hnf, if_pos hbc]
        rw [hsel]
        exact ⟨by simp, by simp⟩
      · have hsw := (schedule_switched_state s htop hnf hbc
          (by
            have hb : (findBest s).best_idx < s.task_count :=
              (scanIters_found_spec s s.task_count hfound).2.2 (by omega)
            omega)).1
        rw [hsw]
        refine ⟨?_, by simp⟩
        intro hc
        exact hbz (by injection hc)
    · have hnf : (findBest s).found = false := by
        simp only [Bool.not_eq_true] at hfound
        exact hfound
      unfold schedule
      rw [if_neg htop]
      dsimp only
      rw [if_pos hnf]
      by_cases hrun : (getTask s s.current_task).state = TaskState.Running
      · rw [if_pos hrun]
        exact ⟨by simp, by simp⟩
      · rw [if_neg hrun]
        by_cases hdb : (getTask s s.current_task).state = TaskState.Dead ∨
            (getTask s s.current_task).state = TaskState.Blocked
        · rw [if_pos hdb, if_neg (by simp [hstk])]
          exact ⟨by simp, by simp⟩
        · rw [if_neg hdb]
          exact ⟨by simp, by simp⟩
  · have hnf : (findBest s).found = false := by
      by_contra hc
      rw [Bool.not_eq_false] at hc
      have hspec := scanIters_found_spec s s.task_count hc
      exact hnone _ (hspec.2.2 (by omega)) hspec.1
    refine ⟨fun hrun => ?_, fun hdb hstk => ?_, fun hdb hstk => ?_⟩
    · unfold schedule
      rw [if_neg htop]
      dsimp only
      rw [if_pos hnf, if_pos hrun]
    · have hnr : ¬((getTask s s.current_task).state = TaskState.Running) := by
        rcases hdb with h | h <;> rw [h] <;> intro hc <;> exact TaskState.noConfusion hc
      exact schedule_fallback_state s htop hnf hnr hdb hstk (by omega)
    · have hnr : ¬((getTask s s.current_task).state = TaskState.Running) := by
        rcases hdb with h | h <;> rw [h] <;> intro hc <;> exact TaskState.noConfusion hc
      unfold schedule
      rw [if_neg htop]
      dsimp only
      rw [if_pos hnf, if_neg hnr, if_pos hdb, if_neg (by simp [hstk])]

/-- Witness for C9: at `sTwoReady` slot 0 is uninitialized
(`stack_top = 0`) and a candidate exists, so the candidate is not slot
0; at `sIdleBack` (idle running again, the only other task `Dead`) no
candidate exists and the current task is still `Running`, so `schedule`
merely resets its slice. -/
theorem C9_idle_guard_and_fallback_witness :
    (findBest sTwoReady).best_idx ≠ 0 ∧
    schedule sIdleBack = (setTask sIdleBack sIdleBack.current_task
      (Task.reset_time_slice (getTask sIdleBack sIdleBack.current_task)),
      ScheduleOutcome.stayRunning) :=
  ⟨(C9_idle_guard_and_fallback sTwoReady (by decide) (by decide) (by decide)).1
     (by decide) (by decide),
   ((C9_idle_guard_and_fallback sIdleBack (by decide) (by decide) (by decide)).2.2
     (by decide)).1 (by decide)⟩

/-! ## C7 — spawn sequences: task count and identifier monotonicity -/

/-- Effect of one successful spawn (either variant) on the scheduler
state: slot `task_count` is filled, count and pid counter advance by
one, all other slots are untouched, and the new slot's id is the old
`next_pid`. -/
theorem doSpawn_spec (c : SpawnCall) (s : SchedState) (h : s.task_count < MAX_TASKS) :
    (doSpawn c s).task_count = s.task_count + 1 ∧
    (doSpawn c s).next_pid = s.next_pid + 1 ∧
    (doSpawn c s).tasks.length = s.tasks.length ∧
    (∀ j, j ≠ s.task_count → getTask (doSpawn c s) j = getTask s j) ∧
    (s.task_count < s.tasks.length → (getTask (doSpawn c s) s.task_count).id = s.next_pid) := by
  have hcond : ¬(MAX_TASKS ≤ s.task_count) := by omega
  cases c with
  | named e a nm p =>
    have hd : doSpawn (SpawnCall.named e a nm p) s
        = { setTask s s.task_count
              (Task.reset_time_slice (Task.set_name
                { getTask s s.task_count with
                  id := s.next_pid, stack_top := a + 16 * 1024 - 14 * 8,
                  state := TaskState.Ready, priority := p } nm)) with
            task_count := s.task_count + 1, next_pid := s.next_pid + 1 } := by
      show (spawn_named e a nm p s).1 = _
      unfold spawn_named
      rw [if_neg hcond]
    rw [hd]
    refine ⟨rfl, rfl, by simp [setTask], fun j hj => ?_, fun hlt => ?_⟩
    · exact getTask_setTask_ne s s.task_count j _ (Ne.symm hj)
    · exact congrArg Task.id (getTask_setTask_self s s.task_count _ hlt)
  | user e k u nm =>
    have hd : doSpawn (SpawnCall.user e k u nm) s
        = { setTask s s.task_count
              (Task.reset_time_slice (Task.set_name
                { getTask s s.task_count with
                  id := s.next_pid, stack_top := k + 16 * 1024 - 14 * 8,
                  state := TaskState.Ready, priority := Priority.Normal } nm)) with
            task_count := s.task_count + 1, next_pid := s.next_pid + 1 } := by
      show (spawn_user e k u nm s).1 = _
      unfold spawn_user
      rw [if_neg hcond]
    rw [hd]
    refine ⟨rfl, rfl, by simp [setTask], fun j hj => ?_, fun hlt => ?_⟩
    · exact getTask_setTask_ne s s.task_count j _ (Ne.symm hj)
    · exact congrArg Task.id (getTask_setTask_self s s.task_count _ hlt)

/-- Effect of a capacity-respecting sequence of spawns: counts and pids
advance by the sequence length, earlier slots are untouched, and the
`m`-th spawned slot's id is `next_pid + m`. -/
theorem runSpawnCalls_spec :
    ∀ (calls : List SpawnCall) (s : SchedState),
      s.task_count + calls.length ≤ MAX_TASKS →
      MAX_TASKS ≤ s.tasks.length →
      (runSpawnCalls calls s).task_count = s.task_count + calls.length ∧
      (runSpawnCalls calls s).next_pid = s.next_pid + calls.length ∧
      (runSpawnCalls calls s).tasks.length = s.tasks.length ∧
      (∀ j, j < s.task_count → getTask (runSpawnCalls calls s) j = getTask s j) ∧
      (∀ m, m < calls.length →
        (getTask (runSpawnCalls calls s) (s.task_count + m)).id = s.next_pid + m)
  | [], s, _, _ =>
    ⟨rfl, rfl, rfl, fun _ _ => rfl, fun m hm => absurd hm (by simp)⟩
  | c :: calls, s, hcap, hblen => by
    have hlc : (c :: calls).length = calls.length + 1 := rfl
    have hc : s.task_count < MAX_TASKS := by omega
    have hd := doSpawn_spec c s hc
    have hrec := runSpawnCalls_spec calls (doSpawn c s)
      (by rw [hd.1]; omega) (by rw [hd.2.2.1]; exact hblen)
    have hfold : runSpawnCalls (c :: calls) s = runSpawnCalls calls (doSpawn c s) := rfl
    rw [hfold]
    refine ⟨by rw [hrec.1, hd.1, hlc]; omega, by rw [hrec.2.1, hd.2.1, hlc]; omega,
      by rw [hrec.2.2.1, hd.2.2.1], fun j hj => ?_, fun m hm => ?_⟩
    · rw [hrec.2.2.2.1 j (by rw [hd.1]; omega), hd.2.2.2.1 j (by omega)]
    · cases m with
      | zero =>
        have h0 := hrec.2.2.2.1 s.task_count (by rw [hd.1]; omega)
        have h1 := hd.2.2.2.2 (by omega)
        rw [Nat.add_zero, h0, h1, Nat.add_zero]
      | succ m' =>
        have hm' : m' < calls.length := by
          rw [hlc] at hm
          omega
        have h0 := hrec.2.2.2.2 m' hm'
        have hidx : s.task_count + (m' + 1) = (doSpawn c s).task_count + m' := by
          rw [hd.1]
          omega
        rw [hidx, h0, hd.2.1]
        omega

/-- C7: after any capacity-respecting sequence of successful spawns
(either variant) from `init`, `task_count` equals the number of spawns
plus one (the idle task); the `m`-th spawn is assigned identifier
`m + 1` from the monotonic pid counter, so the identifiers of successive
spawns are pairwise distinct and strictly increasing. -/
theorem C7_spawn_count_and_ids (calls : List SpawnCall) (bootSp : Nat)
    (hlen : calls.length ≤ 15) :
    task_count (runSpawnCalls calls (initState bootSp)) = calls.length + 1 ∧
    (∀ m, m < calls.length →
      (getTask (runSpawnCalls calls (initState bootSp)) (1 + m)).id = 1 + m) ∧
    (∀ i j, 1 ≤ i → i < j → j ≤ calls.length →
      (getTask (runSpawnCalls calls (initState bootSp)) i).id
        < (getTask (runSpawnCalls calls (initState bootSp)) j).id) := by
  have hlen16 : (initState bootSp).tasks.length = 16 := by
    simp [initState]
  have hrun := runSpawnCalls_spec calls (initState bootSp)
    (by
      show 1 + calls.length ≤ MAX_TASKS
      unfold MAX_TASKS
      omega)
    (by rw [hlen16]; decide)
  have hids : ∀ m, m < calls.length →
      (getTask (runSpawnCalls calls (initState bootSp)) (1 + m)).id = 1 + m :=
    fun m hm => hrun.2.2.2.2 m hm
  have hone : (initState bootSp).task_count = 1 := rfl
  refine ⟨by rw [show task_count (runSpawnCalls calls (initState bootSp))
      = (runSpawnCalls calls (initState bootSp)).task_count from rfl, hrun.1, hone]; omega,
    hids, fun i j hi1 hij hjlen => ?_⟩
  have hi := hids (i - 1) (by omega)
  have hj := hids (j - 1) (by omega)
  have hieq : 1 + (i - 1) = i := by omega
  have hjeq : 1 + (j - 1) = j := by omega
  rw [hieq] at hi
  rw [hjeq] at hj
  rw [hi, hj]
  omega

/-- Witness for C7 at a concrete two-spawn sequence (one kernel thread,
one user task): three tasks total, ids strictly increasing. -/
theorem C7_spawn_count_and_ids_witness :
    task_count (runSpawnCalls
      [SpawnCall.named 5 0 [] Priority.Normal, SpawnCall.user 7 0 0 []] (initState 3)) = 3 ∧
    (getTask (runSpawnCalls
      [SpawnCall.named 5 0 [] Priority.Normal, SpawnCall.user 7 0 0 []] (initState 3)) 1).id
      < (getTask (runSpawnCalls
      [SpawnCall.named 5 0 [] Priority.Normal, SpawnCall.user 7 0 0 []] (initState 3)) 2).id :=
  have h := C7_spawn_count_and_ids
    [SpawnCall.named 5 0 [] Priority.Normal, SpawnCall.user 7 0 0 []] 3 (by decide)
  ⟨h.1, h.2.2 1 2 (by decide) (by decide) (by decide)⟩

/-! ## Scheduler invariant (C2, C5) -/

/-- The scheduler's structural invariant: the task array has its static
length 16, the count stays in `1..16`, the current index is a live slot,
every `Running` slot is the current slot, and every slot at or beyond
the count is still `Unused`. -/
def Inv (s : SchedState) : Prop :=
  s.tasks.length = 16 ∧
  1 ≤ s.task_count ∧ s.task_count ≤ 16 ∧
  s.current_task < s.task_count ∧
  (∀ i, (getTask s i).state = TaskState.Running → i = s.current_task) ∧
  (∀ i, s.task_count ≤ i → (getTask s i).state = TaskState.Unused)

theorem length_le_one_of_nodup_const {α : Type} (l : List α) (c : α)
    (hnd : l.Nodup) (hall : ∀ x ∈ l, x = c) : l.length ≤ 1 := by
  cases l with
  | nil => simp
  | cons a l' =>
    cases l' with
    | nil => simp
    | cons b l'' =>
      exfalso
      have ha := hall a (by simp)
      have hb := hall b (by simp)
      have hne : a ≠ b := by
        have := (List.nodup_cons.mp hnd).1
        intro hab
        exact this (hab ▸ List.mem_cons_self b l'')
      exact hne (ha.trans hb.symm)

theorem runningCount_le_one (s : SchedState)
    (h : ∀ i, (getTask s i).state = TaskState.Running → i = s.current_task) :
    runningCount s ≤ 1 := by
  unfold runningCount
  apply length_le_one_of_nodup_const _ s.current_task
  · exact (List.nodup_range 16).filter _
  · intro x hx
    have hmem := List.mem_filter.mp hx
    exact h x (of_decide_eq_true hmem.2)

theorem inv_initState (bootSp : Nat) : Inv (initState bootSp) := by
  refine ⟨by simp [initState], by show (1 : Nat) ≤ 1; omega, by show (1 : Nat) ≤ 16; omega,
    by show (0 : Nat) < 1; omega, fun i hi => ?_, fun i hi => ?_⟩
  · cases i with
    | zero => rfl
    | succ j =>
      exfalso
      have he : getTask (initState bootSp) (j + 1) = Task.empty :=
        getD_replicate_self 15 j Task.empty
      rw [he] at hi
      exact TaskState.noConfusion hi
  · cases i with
    | zero =>
      exfalso
      have h1 : (initState bootSp).task_count = 1 := rfl
      omega
    | succ j =>
      have he : getTask (initState bootSp) (j + 1) = Task.empty :=
        getD_replicate_self 15 j Task.empty
      rw [he]
      rfl

theorem inv_enable (s : SchedState) (h : Inv s) : Inv (enable s) := h

/-- Writing a slot below the count with an un-`Running` task, or with a
task whose state equals the old slot's state, keeps the invariant. -/
theorem inv_setTask (s : SchedState) (i : Nat) (t : Task) (hInv : Inv s)
    (hi : i < s.task_count)
    (hst : t.state = (getTask s i).state ∨ t.state ≠ TaskState.Running) :
    Inv (setTask s i t) := by
  obtain ⟨hlen, hc1, hc16, hcur, hrun, hun⟩ := hInv
  have hilen : i < s.tasks.length := by omega
  refine ⟨by simp [setTask, hlen], hc1, hc16, hcur, fun j hj => ?_, fun j hj => ?_⟩
  · by_cases hij : i = j
    · subst hij
      rw [getTask_setTask_self s i t hilen] at hj
      rcases hst with h | h
      · exact hrun i (h ▸ hj)
      · exact absurd hj h
    · rw [getTask_setTask_ne s i j t hij] at hj
      exact hrun j hj
  · have hsc : (setTask s i t).task_count = s.task_count := rfl
    have hij : i ≠ j := by omega
    rw [getTask_setTask_ne s i j t hij]
    exact hun j (by omega)

theorem inv_schedule (s : SchedState) (hInv : Inv s) : Inv (schedule s).1 := by
  have hlen := hInv.1
  have hc1 := hInv.2.1
  have hc16 := hInv.2.2.1
  have hcur := hInv.2.2.2.1
  have hrun := hInv.2.2.2.2.1
  have hun := hInv.2.2.2.2.2
  by_cases htop : s.task_count ≤ 1 ∨ s.sched_enabled = false
  · have hred : schedule s = (s, ScheduleOutcome.disabledOrSolo) := by
      unfold schedule
      rw [if_pos htop]
    rw [hred]
    exact hInv
  by_cases hnf : (findBest s).found = false
  · by_cases hrn : (getTask s s.current_task).state = TaskState.Running
    · have hred : schedule s = (setTask s s.current_task
          (Task.reset_time_slice (getTask s s.current_task)),
          ScheduleOutcome.stayRunning) := by
        unfold schedule
        rw [if_neg htop]
        dsimp only
        rw [if_pos hnf, if_pos hrn]
      rw [hred]
      exact inv_setTask s _ _ hInv (by omega) (Or.inl rfl)
    · by_cases hdb : (getTask s s.current_task).state = TaskState.Dead ∨
          (getTask s s.current_task).state = TaskState.Blocked
      · by_cases hstk : (getTask s 0).stack_top ≠ 0
        · have hred : schedule s = (contextSwitch
              { setTask s 0 { getTask s 0 with state := TaskState.Running } with
                current_task := 0 } s.current_task 0, ScheduleOutcome.idleFallback) := by
            unfold schedule
            rw [if_neg htop]
            dsimp only
            rw [if_pos hnf, if_neg hrn, if_pos hdb, if_pos hstk]
          rw [hred]
          dsimp only
          refine ⟨?_, ?_, ?_, ?_, fun i hi => ?_, fun i hi => ?_⟩
          · rw [(contextSwitch_scalars _ _ _).2.2.2.2]
            show (setTask s 0 _).tasks.length = 16
            rw [setTask_tasks_length]
            exact hlen
          · rw [(contextSwitch_scalars _ _ _).1]
            exact hc1
          · rw [(contextSwitch_scalars _ _ _).1]
            exact hc16
          · rw [(contextSwitch_scalars _ _ _).1, (contextSwitch_scalars _ _ _).2.1]
            show (0 : Nat) < s.task_count
            omega
          · rw [(contextSwitch_proj _ _ _ _).1] at hi
            rw [(contextSwitch_scalars _ _ _).2.1]
            show i = (0 : Nat)
            by_contra hi0
            have hne : (0 : Nat) ≠ i := fun h => hi0 h.symm
            have hx : getTask { setTask s 0 { getTask s 0 with state := TaskState.Running } with
                current_task := (0 : Nat) } i
                = getTask (setTask s 0 { getTask s 0 with state := TaskState.Running }) i := rfl
            rw [hx, getTask_setTask_ne s 0 i _ hne] at hi
            have := hrun i hi
            rw [this] at hi
            exact hrn hi
          · rw [(contextSwitch_proj _ _ _ _).1]
            rw [(contextSwitch_scalars _ _ _).1] at hi
            have hci : s.task_count ≤ i := hi
            have hne : (0 : Nat) ≠ i := by omega
            have hx : getTask { setTask s 0 { getTask s 0 with state := TaskState.Running } with
                current_task := (0 : Nat) } i
                = getTask (setTask s 0 { getTask s 0 with state := TaskState.Running }) i := rfl
            rw [hx, getTask_setTask_ne s 0 i _ hne]
            exact hun i hci
        · have hred : schedule s = (s, ScheduleOutcome.fatalHalt) := by
            unfold schedule
            rw [if_neg htop]
            dsimp only
            rw [if_pos hnf, if_neg hrn, if_pos hdb, if_neg (by simpa using hstk)]
          rw [hred]
          exact hInv
      · have hred : schedule s = (s, ScheduleOutcome.noCandidateOther) := by
          unfold schedule
          rw [if_neg htop]
          dsimp only
          rw [if_pos hnf, if_neg hrn, if_neg hdb]
        rw [hred]
        exact hInv
  · have hfound : (findBest s).found = true := by
      rw [Bool.not_eq_false] at hnf
      exact hnf
    have hbcnt : (findBest s).best_idx < s.task_count :=
      (scanIters_found_spec s s.task_count hfound).2.2 (by omega)
    have hbready : (getTask s (findBest s).best_idx).state = TaskState.Ready :=
      (scanIters_found_spec s s.task_count hfound).1.2
    by_cases hbc : (findBest s).best_idx = s.current_task
    · have hred : schedule s = (setTask s s.current_task
          (Task.reset_time_slice (getTask s s.current_task)),
          ScheduleOutcome.selfSelect) := by
        unfold schedule
        rw [if_neg htop]
        dsimp only
        rw [if_neg hnf, if_pos hbc]
      rw [hred]
      exact inv_setTask s _ _ hInv (by omega) (Or.inl rfl)
    · obtain ⟨s1, hs1⟩ : ∃ x, (if (getTask s s.current_task).state = TaskState.Running then
          setTask s s.current_task { getTask s s.current_task with state := TaskState.Ready }
        else s) = x := ⟨_, rfl⟩
      have hred : schedule s
          = (contextSwitch { setTask s1 (findBest s).best_idx
              (Task.reset_time_slice
                { getTask s1 (findBest s).best_idx with state := TaskState.Running }) with
              current_task := (findBest s).best_idx } s.current_task (findBest s).best_idx,
             ScheduleOutcome.switched (findBest s).best_idx) := by
        unfold schedule
        rw [if_neg htop]
        dsimp only
        rw [if_neg hnf, if_neg hbc, hs1]
      have hs1len : s1.tasks.length = 16 := by
        rw [← hs1]
        split_ifs
        · rw [setTask_tasks_length]
          exact hlen
        · exact hlen
      have hs1get : ∀ i, i ≠ s.current_task → getTask s1 i = getTask s i := by
        intro i hi
        rw [← hs1]
        split_ifs
        · exact getTask_setTask_ne s s.current_task i _ (fun h => hi h.symm)
        · rfl
      have hs1cur : ∀ i, i = s.current_task →
          (getTask s1 i).state ≠ TaskState.Running := by
        intro i hieq
        subst hieq
        rw [← hs1]
        split_ifs with hrn2
        · rw [getTask_setTask_self s s.current_task _ (by omega)]
          intro hc
          exact TaskState.noConfusion hc
        · exact hrn2
      have hs1count : s1.task_count = s.task_count := by
        rw [← hs1]
        split_ifs <;> rfl
      rw [hred]
      dsimp only
      refine ⟨?_, ?_, ?_, ?_, fun i hi => ?_, fun i hi => ?_⟩
      · rw [(contextSwitch_scalars _ _ _).2.2.2.2]
        show (setTask s1 _ _).tasks.length = 16
        rw [setTask_tasks_length]
        exact hs1len
      · rw [(contextSwitch_scalars _ _ _).1]
        show 1 ≤ s1.task_count
        rw [hs1count]
        exact hc1
      · rw [(contextSwitch_scalars _ _ _).1]
        show s1.task_count ≤ 16
        rw [hs1count]
        exact hc16
      · rw [(contextSwitch_scalars _ _ _).1, (contextSwitch_scalars _ _ _).2.1]
        show (findBest s).best_idx < s1.task_count
        rw [hs1count]
        exact hbcnt
      · rw [(contextSwitch_proj _ _ _ _).1] at hi
        rw [(contextSwitch_scalars _ _ _).2.1]
        show i = (findBest s).best_idx
        by_contra hib
        have hne : (findBest s).best_idx ≠ i := fun h => hib h.symm
        have hx : getTask { setTask s1 (findBest s).best_idx
            (Task.reset_time_slice
              { getTask s1 (findBest s).best_idx with state := TaskState.Running }) with
            current_task := (findBest s).best_idx } i
            = getTask (setTask s1 (findBest s).best_idx
              (Task.reset_time_slice
                { getTask s1 (findBest s).best_idx with state := TaskState.Running })) i := rfl
        rw [hx, getTask_setTask_ne s1 (findBest s).best_idx i _ hne] at hi
        by_cases hic : i = s.current_task
        · exact hs1cur i hic hi
        · rw [hs1get i hic] at hi
          exact hic (hrun i hi)
      · rw [(contextSwitch_proj _ _ _ _).1]
        rw [(contextSwitch_scalars _ _ _).1] at hi
        have hci : s.task_count ≤ i := by
          rw [← hs1count]
          exact hi
        have hnb : (findBest s).best_idx ≠ i := by omega
        have hnc : i ≠ s.current_task := by omega
        have hx : getTask { setTask s1 (findBest s).best_idx
            (Task.reset_time_slice
              { getTask s1 (findBest s).best_idx with state := TaskState.Running }) with
            current_task := (findBest s).best_idx } i
            = getTask (setTask s1 (findBest s).best_idx
              (Task.reset_time_slice
                { getTask s1 (findBest s).best_idx with state := TaskState.Running })) i := rfl
        rw [hx, getTask_setTask_ne s1 (findBest s).best_idx i _ hnb, hs1get i hnc]
        exact hun i hci

/-- Appending a fresh `Ready` task at slot `task_count` keeps the
invariant. -/
theorem inv_spawn_push (s : SchedState) (T : Task) (hT : T.state = TaskState.Ready)
    (hInv : Inv s) (hcap : s.task_count < 16) :
    Inv { setTask s s.task_count T with
          task_count := s.task_count + 1, next_pid := s.next_pid + 1 } := by
  obtain ⟨hlen, hc1, hc16, hcur, hrun, hun⟩ := hInv
  have hclen : s.task_count < s.tasks.length := by omega
  refine ⟨by simp [setTask, hlen], by show 1 ≤ s.task_count + 1; omega,
    by show s.task_count + 1 ≤ 16; omega,
    by show s.current_task < s.task_count + 1; omega, fun i hi => ?_, fun i hi => ?_⟩
  · have hx : getTask { setTask s s.task_count T with
        task_count := s.task_count + 1, next_pid := s.next_pid + 1 } i
        = getTask (setTask s s.task_count T) i := rfl
    rw [hx] at hi
    by_cases hic : s.task_count = i
    · subst hic
      rw [getTask_setTask_self s s.task_count T hclen] at hi
      rw [hT] at hi
      exact absurd hi (by intro h; exact TaskState.noConfusion h)
    · rw [getTask_setTask_ne s s.task_count i T hic] at hi
      exact hrun i hi
  · have hci : s.task_count + 1 ≤ i := hi
    have hx : getTask { setTask s s.task_count T with
        task_count := s.task_count + 1, next_pid := s.next_pid + 1 } i
        = getTask (setTask s s.task_count T) i := rfl
    rw [hx, getTask_setTask_ne s s.task_count i T (by omega)]
    exact hun i (by omega)

theorem inv_spawn_named (entry allocPtr : Nat) (name : List Nat) (p : Priority)
    (s : SchedState) (hInv : Inv s) : Inv (spawn_named entry allocPtr name p s).1 := by
  by_cases hcap : MAX_TASKS ≤ s.task_count
  · have hred : spawn_named entry allocPtr name p s = (s, false) := by
      unfold spawn_named
      rw [if_pos hcap]
    rw [hred]
    exact hInv
  · have hred : (spawn_named entry allocPtr name p s).1
        = { setTask s s.task_count
              (Task.reset_time_slice (Task.set_name
                { getTask s s.task_count with
                  id := s.next_pid, stack_top := allocPtr + 16 * 1024 - 14 * 8,
                  state := TaskState.Ready, priority := p } name)) with
            task_count := s.task_count + 1, next_pid := s.next_pid + 1 } := by
      unfold spawn_named
      rw [if_neg hcap]
    rw [hred]
    exact inv_spawn_push s _ rfl hInv (by unfold MAX_TASKS at hcap; omega)

theorem inv_spawn_user (entry_addr kstackPtr ustackPtr : Nat) (name : List Nat)
    (s : SchedState) (hInv : Inv s) :
    Inv (spawn_user entry_addr kstackPtr ustackPtr name s).1 := by
  by_cases hcap : MAX_TASKS ≤ s.task_count
  · have hred : spawn_user entry_addr kstackPtr ustackPtr name s = (s, false) := by
      unfold spawn_user
      rw [if_pos hcap]
    rw [hred]
    exact hInv
  · have hred : (spawn_user entry_addr kstackPtr ustackPtr name s).1
        = { setTask s s.task_count
              (Task.reset_time_slice (Task.set_name
                { getTask s s.task_count with
                  id := s.next_pid, stack_top := kstackPtr + 16 * 1024 - 14 * 8,
                  state := TaskState.Ready, priority := Priority.Normal } name)) with
            task_count := s.task_count + 1, next_pid := s.next_pid + 1 } := by
      unfold spawn_user
      rw [if_neg hcap]
    rw [hred]
    exact inv_spawn_push s _ rfl hInv (by unfold MAX_TASKS at hcap; omega)

theorem inv_tick (s : SchedState) (hInv : Inv s) : Inv (tick s).1 := by
  by_cases hc : s.sched_enabled = false ∨ s.task_count ≤ 1
  · have hred : tick s = (s, false) := by
      unfold tick
      rw [if_pos hc]
    rw [hred]
    exact hInv
  · obtain ⟨s1, hs1⟩ : ∃ x, (if 0 < (getTask s s.current_task).remaining_slices then
        setTask s s.current_task
          { getTask s s.current_task with
            remaining_slices := (getTask s s.current_task).remaining_slices - 1 }
      else s) = x := ⟨_, rfl⟩
    have hInv1 : Inv s1 := by
      rw [← hs1]
      split_ifs
      · exact inv_setTask s _ _ hInv hInv.2.2.2.1 (Or.inl rfl)
      · exact hInv
    have hred : tick s = (if (getTask s1 s.current_task).remaining_slices = 0 then
        ((schedule s1).1, true) else (s1, false)) := by
      unfold tick
      rw [if_neg hc]
      dsimp only
      rw [hs1]
    rw [hred]
    split_ifs
    · exact inv_schedule s1 hInv1
    · exact hInv1

theorem inv_block (s : SchedState) (hInv : Inv s) : Inv (block_current_task s) := by
  unfold block_current_task
  dsimp only
  apply inv_schedule
  exact inv_setTask s _ _ hInv hInv.2.2.2.1
    (Or.inr (by intro h; exact TaskState.noConfusion h))

theorem inv_exit (s : SchedState) (hInv : Inv s) : Inv (exit_current_task s) := by
  unfold exit_current_task
  dsimp only
  apply inv_schedule
  exact inv_setTask s _ _ hInv hInv.2.2.2.1
    (Or.inr (by intro h; exact TaskState.noConfusion h))

theorem inv_wakeAux (pid : Nat) (s : SchedState) (hInv : Inv s) :
    ∀ (fuel i : Nat), Inv (wakeAux pid s i fuel)
  | 0, _ => hInv
  | fuel + 1, i => by
    show Inv (if (getTask s i).id = pid ∧ (getTask s i).state = TaskState.Blocked then
      setTask s i { getTask s i with state := TaskState.Ready }
    else wakeAux pid s (i + 1) fuel)
    split_ifs with hg
    · have hilt : i < s.task_count := by
        by_contra hge
        have := hInv.2.2.2.2.2 i (by omega)
        rw [this] at hg
        exact TaskState.noConfusion hg.2
      exact inv_setTask s i _ hInv hilt
        (Or.inr (by intro h; exact TaskState.noConfusion h))
    · exact inv_wakeAux pid s hInv fuel (i + 1)

theorem inv_wake (pid : Nat) (s : SchedState) (hInv : Inv s) : Inv (wake_task pid s) :=
  inv_wakeAux pid s hInv s.task_count 0

theorem inv_step (s s' : SchedState) (hInv : Inv s) (hstep : Step s s') : Inv s' := by
  cases hstep with
  | enable => exact inv_enable s hInv
  | spawnNamed e a nm p => exact inv_spawn_named e a nm p s hInv
  | spawnUser e k u nm => exact inv_spawn_user e k u nm s hInv
  | tick => exact inv_tick s hInv
  | schedule => exact inv_schedule s hInv
  | block h => exact inv_block s hInv
  | wake pid => exact inv_wake pid s hInv
  | exit h => exact inv_exit s hInv

theorem inv_reachable (s : SchedState) (h : Reachable s) : Inv s := by
  obtain ⟨bootSp, s0, hs0, hsteps⟩ := h
  induction hsteps with
  | refl => exact hs0 ▸ inv_initState bootSp
  | tail hab hbc ih => exact inv_step _ _ ih hbc

/-! ## C2 — at most one Running slot -/

/-- C2 (amended): in every state reachable from scheduler initialization
by the scheduler operations (enable, spawn_named, spawn_user, tick,
schedule, block_current_task, wake_task, exit_current_task — block and
exit being calls made by the running task), **at most one** task-table
slot is in state `Running`; the count can drop to zero — the `exactly
one` of the original claim fails — precisely when the current task
blocks or dies and `schedule` has no successor to hand the CPU to
(e.g. `block_current_task` with scheduling disabled or fewer than two
tasks). -/
theorem C2_at_most_one_running (s : SchedState) (h : Reachable s) :
    runningCount s ≤ 1 :=
  runningCount_le_one s (inv_reachable s h).2.2.2.2.1

/-- Witness for C2 at a concrete reachable state. -/
theorem C2_at_most_one_running_witness : runningCount sShell ≤ 1 :=
  C2_at_most_one_running sShell
    ⟨5, initState 5, rfl,
      Relation.ReflTransGen.tail
        (Relation.ReflTransGen.tail
          (Relation.ReflTransGen.single
            (Step.spawnNamed (initState 5) 0 0 [] Priority.Normal))
          (Step.enable sSpawn1))
        (Step.schedule (enable sSpawn1))⟩

/-- C2 counterexample: `block_current_task` right after `init` (scheduling
still disabled, one task) is a legal step from initialization, and it
leaves **zero** slots in state `Running` — not exactly one as the claim
requires for precisely this situation. -/
theorem C2_counterexample :
    Relation.ReflTransGen Step (initState 5) (block_current_task (initState 5)) ∧
    (initState 5).sched_enabled = false ∧
    (initState 5).task_count = 1 ∧
    runningCount (block_current_task (initState 5)) = 0 :=
  ⟨Relation.ReflTransGen.single (Step.block (initState 5) (by decide)),
   rfl, rfl, by decide⟩

/-! ## C5 — dead tasks stay dead and are never selected -/

/-- Overwriting a slot without changing its state leaves every slot's
state unchanged. -/
theorem state_setTask_preserve (s : SchedState) (j : Nat) (t : Task)
    (hst : t.state = (getTask s j).state) (i : Nat) :
    (getTask (setTask s j t) i).state = (getTask s i).state := by
  by_cases hj : j = i
  · subst hj
    by_cases hlen : j < s.tasks.length
    · rw [getTask_setTask_self s j t hlen, hst]
    · have hset : s.tasks.set j t = s.tasks := List.set_eq_of_length_le (by omega)
      show ((s.tasks.set j t).getD j Task.empty).state = _
      rw [hset]
      rfl
  · rw [getTask_setTask_ne s j i t hj]

/-- `schedule` never turns a dead slot other than the idle slot into
anything else. -/
theorem schedule_dead_pres (s : SchedState) (i : Nat) (hi0 : i ≠ 0)
    (hdead : (getTask s i).state = TaskState.Dead) :
    (getTask (schedule s).1 i).state = TaskState.Dead := by
  by_cases htop : s.task_count ≤ 1 ∨ s.sched_enabled = false
  · have hred : schedule s = (s, ScheduleOutcome.disabledOrSolo) := by
      unfold schedule
      rw [if_pos htop]
    rw [hred]
    exact hdead
  by_cases hnf : (findBest s).found = false
  · by_cases hrn : (getTask s s.current_task).state = TaskState.Running
    · have hred : schedule s = (setTask s s.current_task
          (Task.reset_time_slice (getTask s s.current_task)),
          ScheduleOutcome.stayRunning) := by
        unfold schedule
        rw [if_neg htop]
        dsimp only
        rw [if_pos hnf, if_pos hrn]
      rw [hred]
      dsimp only
      rw [state_setTask_preserve s s.current_task
        (Task.reset_time_slice (getTask s s.current_task)) rfl i]
      exact hdead
    · by_cases hdb : (getTask s s.current_task).state = TaskState.Dead ∨
          (getTask s s.current_task).state = TaskState.Blocked
      · by_cases hstk : (getTask s 0).stack_top ≠ 0
        · have hred : schedule s = (contextSwitch
              { setTask s 0 { getTask s 0 with state := TaskState.Running } with
                current_task := 0 } s.current_task 0, ScheduleOutcome.idleFallback) := by
            unfold schedule
            rw [if_neg htop]
            dsimp only
            rw [if_pos hnf, if_neg hrn, if_pos hdb, if_pos hstk]
          rw [hred]
          dsimp only
          rw [(contextSwitch_proj _ _ _ _).1]
          have hx : getTask { setTask s 0 { getTask s 0 with state := TaskState.Running } with
              current_task := (0 : Nat) } i
              = getTask (setTask s 0 { getTask s 0 with state := TaskState.Running }) i := rfl
          rw [hx, getTask_setTask_ne s 0 i _ (fun h => hi0 h.symm)]
          exact hdead
        · have hred : schedule s = (s, ScheduleOutcome.fatalHalt) := by
            unfold schedule
            rw [if_neg htop]
            dsimp only
            rw [if_pos hnf, if_neg hrn, if_pos hdb, if_neg (by simpa using hstk)]
          rw [hred]
          exact hdead
      · have hred : schedule s = (s, ScheduleOutcome.noCandidateOther) := by
          unfold schedule
          rw [if_neg htop]
          dsimp only
          rw [if_pos hnf, if_neg hrn, if_neg hdb]
        rw [hred]
        exact hdead
  · have hfound : (findBest s).found = true := by
      rw [Bool.not_eq_false] at hnf
      exact hnf
    have hbready : (getTask s (findBest s).best_idx).state = TaskState.Ready :=
      (scanIters_found_spec s s.task_count hfound).1.2
    have hbne : (findBest s).best_idx ≠ i := by
      intro h
      rw [h, hdead] at hbready
      exact TaskState.noConfusion hbready
    by_cases hbc : (findBest s).best_idx = s.current_task
    · have hred : schedule s = (setTask s s.current_task
          (Task.reset_time_slice (getTask s s.current_task)),
          ScheduleOutcome.selfSelect) := by
        unfold schedule
        rw [if_neg htop]
        dsimp only
        rw [if_neg hnf, if_pos hbc]
      rw [hred]
      dsimp only
      rw [state_setTask_preserve s s.current_task
        (Task.reset_time_slice (getTask s s.current_task)) rfl i]
      exact hdead
    · obtain ⟨s1, hs1⟩ : ∃ x, (if (getTask s s.current_task).state = TaskState.Running then
          setTask s s.current_task { getTask s s.current_task with state := TaskState.Ready }
        else s) = x := ⟨_, rfl⟩
      have hred : schedule s
          = (contextSwitch { setTask s1 (findBest s).best_idx
              (Task.reset_time_slice
                { getTask s1 (findBest s).best_idx with state := TaskState.Running }) with
              current_task := (findBest s).best_idx } s.current_task (findBest s).best_idx,
             ScheduleOutcome.switched (findBest s).best_idx) := by
        unfold schedule
        rw [if_neg htop]
        dsimp only
        rw [if_neg hnf, if_neg hbc, hs1]
      have hs1dead : (getTask s1 i).state = TaskState.Dead := by
        rw [← hs1]
        split_ifs with hrn2
        · have hics : s.current_task ≠ i := by
            intro h
            rw [h, hdead] at hrn2
            exact TaskState.noConfusion hrn2
          rw [getTask_setTask_ne s s.current_task i _ hics]
          exact hdead
        · exact hdead
      rw [hred]
      dsimp only
      rw [(contextSwitch_proj _ _ _ _).1]
      have hx : getTask { setTask s1 (findBest s).best_idx
          (Task.reset_time_slice
            { getTask s1 (findBest s).best_idx with state := TaskState.Running }) with
          current_task := (findBest s).best_idx } i
          = getTask (setTask s1 (findBest s).best_idx
            (Task.reset_time_slice
              { getTask s1 (findBest s).best_idx with state := TaskState.Running })) i := rfl
      rw [hx, getTask_setTask_ne s1 (findBest s).best_idx i _ hbne]
      exact hs1dead

/-- Only the successfully switched branch of `schedule` reports
`switched`, and it reports the scan's candidate. -/
theorem schedule_switched_inv (s : SchedState) (j : Nat)
    (h : (schedule s).2 = ScheduleOutcome.switched j) :
    (findBest s).found = true ∧ j = (findBest s).best_idx := by
  by_cases htop : s.task_count ≤ 1 ∨ s.sched_enabled = false
  · have hred : schedule s = (s, ScheduleOutcome.disabledOrSolo) := by
      unfold schedule
      rw [if_pos htop]
    rw [hred] at h
    exact absurd h (by intro hc; exact ScheduleOutcome.noConfusion hc)
  by_cases hnf : (findBest s).found = false
  · by_cases hrn : (getTask s s.current_task).state = TaskState.Running
    · have hred : (schedule s).2 = ScheduleOutcome.stayRunning := by
        unfold schedule
        rw [if_neg htop]
        dsimp only
        rw [if_pos hnf, if_pos hrn]
      rw [hred] at h
      exact absurd h (by intro hc; exact ScheduleOutcome.noConfusion hc)
    · by_cases hdb : (getTask s s.current_task).state = TaskState.Dead ∨
          (getTask s s.current_task).state = TaskState.Blocked
      · by_cases hstk : (getTask s 0).stack_top ≠ 0
        · have hred : (schedule s).2 = ScheduleOutcome.idleFallback := by
            unfold schedule
            rw [if_neg htop]
            dsimp only
            rw [if_pos hnf, if_neg hrn, if_pos hdb, if_pos hstk]
          rw [hred] at h
          exact absurd h (by intro hc; exact ScheduleOutcome.noConfusion hc)
        · have hred : (schedule s).2 = ScheduleOutcome.fatalHalt := by
            unfold schedule
            rw [if_neg htop]
            dsimp only
            rw [if_pos hnf, if_neg hrn, if_pos hdb, if_neg (by simpa using hstk)]
          rw [hred] at h
          exact absurd h (by intro hc; exact ScheduleOutcome.noConfusion hc)
      · have hred : (schedule s).2 = ScheduleOutcome.noCandidateOther := by
          unfold schedule
          rw [if_neg htop]
          dsimp only
          rw [if_pos hnf, if_neg hrn, if_neg hdb]
        rw [hred] at h
        exact absurd h (by intro hc; exact ScheduleOutcome.noConfusion hc)
  · have hfound : (findBest s).found = true := by
      rw [Bool.not_eq_false] at hnf
      exact hnf
    by_cases hbc : (findBest s).best_idx = s.current_task
    · have hred : (schedule s).2 = ScheduleOutcome.selfSelect := by
        unfold schedule
        rw [if_neg htop]
        dsimp only
        rw [if_neg hnf, if_pos hbc]
      rw [hred] at h
      exact absurd h (by intro hc; exact ScheduleOutcome.noConfusion hc)
    · have hred : (schedule s).2 = ScheduleOutcome.switched (findBest s).best_idx := by
        unfold schedule
        rw [if_neg htop]
        dsimp only
        rw [if_neg hnf, if_neg hbc]
      rw [hred] at h
      refine ⟨hfound, ?_⟩
      injection h with h
      exact h.symm

/-- One scheduler step never revives a dead slot other than slot 0. -/
theorem step_dead_pres (s s' : SchedState) (i : Nat) (hInv : Inv s)
    (hstep : Step s s') (hi0 : i ≠ 0)
    (hdead : (getTask s i).state = TaskState.Dead) :
    (getTask s' i).state = TaskState.Dead := by
  have hclen : s.current_task < s.tasks.length := by
    have h1 := hInv.1
    have h2 := hInv.2.2.1
    have h3 := hInv.2.2.2.1
    omega
  cases hstep with
  | enable => exact hdead
  | spawnNamed e a nm p =>
    by_cases hcap : MAX_TASKS ≤ s.task_count
    · have hred : spawn_named e a nm p s = (s, false) := by
        unfold spawn_named
        rw [if_pos hcap]
      rw [hred]
      exact hdead
    · have hic : i ≠ s.task_count := by
        intro h
        have hu := hInv.2.2.2.2.2 s.task_count (le_refl _)
        rw [← h, hdead] at hu
        exact TaskState.noConfusion hu
      have hd := doSpawn_spec (SpawnCall.named e a nm p) s
        (by unfold MAX_TASKS at hcap ⊢; omega)
      have hq : (spawn_named e a nm p s).1 = doSpawn (SpawnCall.named e a nm p) s := rfl
      rw [hq, hd.2.2.2.1 i hic]
      exact hdead
  | spawnUser e k u nm =>
    by_cases hcap : MAX_TASKS ≤ s.task_count
    · have hred : spawn_user e k u nm s = (s, false) := by
        unfold spawn_user
        rw [if_pos hcap]
      rw [hred]
      exact hdead
    · have hic : i ≠ s.task_count := by
        intro h
        have hu := hInv.2.2.2.2.2 s.task_count (le_refl _)
        rw [← h, hdead] at hu
        exact TaskState.noConfusion hu
      have hd := doSpawn_spec (SpawnCall.user e k u nm) s
        (by unfold MAX_TASKS at hcap ⊢; omega)
      have hq : (spawn_user e k u nm s).1 = doSpawn (SpawnCall.user e k u nm) s := rfl
      rw [hq, hd.2.2.2.1 i hic]
      exact hdead
  | tick =>
    by_cases hc : s.sched_enabled = false ∨ s.task_count ≤ 1
    · have hred : tick s = (s, false) := by
        unfold tick
        rw [if_pos hc]
      rw [hred]
      exact hdead
    · obtain ⟨s1, hs1⟩ : ∃ x, (if 0 < (getTask s s.current_task).remaining_slices then
          setTask s s.current_task
            { getTask s s.current_task with
              remaining_slices := (getTask s s.current_task).remaining_slices - 1 }
        else s) = x := ⟨_, rfl⟩
      have hdead1 : (getTask s1 i).state = TaskState.Dead := by
        rw [← hs1]
        split_ifs
        · rw [state_setTask_preserve s s.current_task
            { getTask s s.current_task with
              remaining_slices := (getTask s s.current_task).remaining_slices - 1 } rfl i]
          exact hdead
        · exact hdead
      have hred : tick s = (if (getTask s1 s.current_task).remaining_slices = 0 then
          ((schedule s1).1, true) else (s1, false)) := by
        unfold tick
        rw [if_neg hc]
        dsimp only
        rw [hs1]
      rw [hred]
      split_ifs
      · exact schedule_dead_pres s1 i hi0 hdead1
      · exact hdead1
  | schedule => exact schedule_dead_pres s i hi0 hdead
  | block h =>
    have hic : s.current_task ≠ i := by
      intro hc
      rw [hc, hdead] at h
      exact TaskState.noConfusion h
    unfold block_current_task
    dsimp only
    apply schedule_dead_pres _ _ hi0
    rw [getTask_setTask_ne s s.current_task i _ hic]
    exact hdead
  | wake pid =>
    unfold wake_task
    have hgen : ∀ (fuel j : Nat), (getTask (wakeAux pid s j fuel) i).state = TaskState.Dead := by
      intro fuel
      induction fuel with
      | zero => intro j; exact hdead
      | succ f ih =>
        intro j
        show (getTask (if (getTask s j).id = pid ∧ (getTask s j).state = TaskState.Blocked then
          setTask s j { getTask s j with state := TaskState.Ready }
        else wakeAux pid s (j + 1) f) i).state = TaskState.Dead
        split_ifs with hg
        · have hji : j ≠ i := by
            intro hc
            rw [hc, hdead] at hg
            exact TaskState.noConfusion hg.2
          rw [getTask_setTask_ne s j i _ hji]
          exact hdead
        · exact ih (j + 1)
    exact hgen s.task_count 0
  | exit h =>
    have hic : s.current_task ≠ i := by
      intro hc
      rw [hc, hdead] at h
      exact TaskState.noConfusion h
    unfold exit_current_task
    dsimp only
    apply schedule_dead_pres _ _ hi0
    rw [getTask_setTask_ne s s.current_task i _ hic]
    exact hdead

/-- Dead slots other than slot 0 stay dead along any step sequence. -/
theorem steps_dead_pres (s s' : SchedState) (i : Nat) (hInv : Inv s)
    (hsteps : Relation.ReflTransGen Step s s') (hi0 : i ≠ 0)
    (hdead : (getTask s i).state = TaskState.Dead) :
    Inv s' ∧ (getTask s' i).state = TaskState.Dead := by
  induction hsteps with
  | refl => exact ⟨hInv, hdead⟩
  | tail hab hbc ih => exact ⟨inv_step _ _ ih.1 hbc, step_dead_pres _ _ i ih.1 hbc hi0 ih.2⟩

/-- C5 (amended): after `exit_current_task` is invoked on the running
task in a slot **other than slot 0**, that slot's state is `Dead`
immediately and in every subsequently reachable state, and the selection
algorithm never selects that slot again (the scan only returns `Ready`
slots and no operation moves a dead non-idle slot out of `Dead`).  Slot
0 alone is exempt: `schedule`'s no-candidate fallback can set a dead
idle slot back to `Running` (see the counterexample). -/
theorem C5_dead_never_selected (s s' : SchedState)
    (hreach : Reachable s)
    (hrun : (getTask s s.current_task).state = TaskState.Running)
    (hzero : s.current_task ≠ 0)
    (hsteps : Relation.ReflTransGen Step (exit_current_task s) s') :
    (getTask (exit_current_task s) s.current_task).state = TaskState.Dead ∧
    (getTask s' s.current_task).state = TaskState.Dead ∧
    ((findBest s').found = true → (findBest s').best_idx ≠ s.current_task) ∧
    (∀ j, (schedule s').2 = ScheduleOutcome.switched j → j ≠ s.current_task) := by
  have hInv := inv_reachable s hreach
  have hclen : s.current_task < s.tasks.length := by
    have h1 := hInv.1
    have h2 := hInv.2.2.1
    have h3 := hInv.2.2.2.1
    omega
  have hdead0 : (getTask (exit_current_task s) s.current_task).state = TaskState.Dead := by
    unfold exit_current_task
    dsimp only
    apply schedule_dead_pres _ _ hzero
    rw [getTask_setTask_self s s.current_task _ hclen]
  have hInv1 : Inv (exit_current_task s) := inv_exit s hInv
  have hper := steps_dead_pres (exit_current_task s) s' s.current_task hInv1 hsteps
    hzero hdead0
  have hnb : (findBest s').found = true → (findBest s').best_idx ≠ s.current_task := by
    intro hf heq
    have hready := (scanIters_found_spec s' s'.task_count hf).1.2
    have hready' : (getTask s' (findBest s').best_idx).state = TaskState.Ready := hready
    rw [heq, hper.2] at hready'
    exact TaskState.noConfusion hready'
  refine ⟨hdead0, hper.2, hnb, fun j hj => ?_⟩
  obtain ⟨hf, hjb⟩ := schedule_switched_inv s' j hj
  rw [hjb]
  exact hnb hf

/-- Witness for C5: exiting the shell task (slot 1, running, reachable)
leaves slot 1 `Dead`, and the next selection does not pick it. -/
theorem C5_dead_never_selected_witness :
    (getTask (exit_current_task sShell) sShell.current_task).state = TaskState.Dead ∧
    ((findBest (exit_current_task sShell)).found = true →
      (findBest (exit_current_task sShell)).best_idx ≠ sShell.current_task) :=
  have h := C5_dead_never_selected sShell (exit_current_task sShell)
    ⟨5, initState 5, rfl,
      Relation.ReflTransGen.tail
        (Relation.ReflTransGen.tail
          (Relation.ReflTransGen.single
            (Step.spawnNamed (initState 5) 0 0 [] Priority.Normal))
          (Step.enable sSpawn1))
        (Step.schedule (enable sSpawn1))⟩
    (by decide) (by decide) Relation.ReflTransGen.refl
  ⟨h.1, h.2.2.1⟩

/-- C5 counterexample: in the reachable state `sIdleBack` the idle task
(slot 0) is the running current task; invoking `exit_current_task` on it
marks it `Dead`, but `schedule`'s no-candidate fallback immediately sets
slot 0 back to `Running` — so the exited task's state is not `Dead`
afterwards and the scheduler runs that slot again, contradicting the
claim for slot 0. -/
theorem C5_counterexample :
    Relation.ReflTransGen Step (initState 5) sIdleBack ∧
    sIdleBack.current_task = 0 ∧
    (getTask sIdleBack 0).state = TaskState.Running ∧
    (getTask (exit_current_task sIdleBack) 0).state = TaskState.Running ∧
    (exit_current_task sIdleBack).current_task = 0 :=
  ⟨Relation.ReflTransGen.tail
    (Relation.ReflTransGen.tail
      (Relation.ReflTransGen.tail
        (Relation.ReflTransGen.single
          (Step.spawnNamed (initState 5) 0 0 [] Priority.Normal))
        (Step.enable sSpawn1))
      (Step.schedule (enable sSpawn1)))
    (Step.exit sShell (by decide)),
   by decide, by decide, by decide, by decide⟩

end AprkOS
